import Mathlib

/-!
# CourseMapper backend: ordinal consistency and cascading mutation engine

A shallow embedding of the mutation endpoints of `backend/main.py`
(create/delete week, create/edit/delete activity, edit/delete workbook,
duplicate workbook) over the data model of `backend/models/models_base.py`,
together with proofs about the dense-numbering invariants, the cascades,
the authorization gate and the dry-run ("peek") mode.

Modelling conventions:
* UUID primary keys become `Nat`; rows of each table are kept in a list in
  insertion order, mirroring the order in which SQLite returns rows of a
  plain SELECT.
* The ordinal columns (`Week.number`, `Activity.number`, `Activity.week_number`,
  `Workbook.number_of_weeks`) are Python ints and become `Int` (the code
  stores the sentry value `-1` and decrements freely).
* `session.exec(select(..)).first()` becomes `List.find?`; an update of a row
  found by its primary key becomes a `List.map` guarded by that key (a
  primary key matches at most one row in the database).
* `Activity.week_number` carries `foreign_key="week.number"` alone, so the
  ORM relationship `Week.activities` joins on the week number only, without
  a workbook filter; every place the source reads `week.activities` or
  `linked_week.activities` is therefore embedded as a filter on
  `weekNumber` alone.  This is why `delete_week` temporarily renumbers
  other workbooks' activities to the sentry `-1`.
* `session.delete` of a `Week` also deletes its `WeekGraduateAttribute`
  link rows, and `session.delete` of an `Activity` also deletes its
  `ActivityStaff` link rows: both are many-to-many `link_model`
  relationships, whose secondary rows the ORM deletes with the parent.
* HTTP error responses become the constructors of `ApiError`
  (422 → `validationError`, 403 → `permissionDenied`, 500 → `internalError`,
  404 → `notFound`).
* The reference tables (Location, LearningPlatform, LearningActivity,
  LearningType, TaskStatus, GraduateAttribute) only ever have their ids
  checked for existence, so they are kept as lists of ids.
* Fresh UUIDs (`uuid.uuid4`) are modelled by a counter `nextId` in the
  database state; a well-formed state has every stored id below `nextId`.
-/

/-- Error kinds surfaced by the endpoints, by HTTP status code. -/
inductive ApiError where
  | validationError   -- HTTPException(422)
  | permissionDenied  -- HTTPException(403), "deliberately obscure"
  | internalError     -- HTTPException(500), raised by `unwrap`
  | notFound          -- HTTPException(404)
deriving Repr, DecidableEq

/-- `models_base.User`. -/
structure User where
  id : Nat
  name : String
  permissionsGroupId : Nat
deriving Repr, DecidableEq

/-- `models_base.PermissionsGroup`. -/
structure PermissionsGroup where
  id : Nat
  name : String
deriving Repr, DecidableEq

/-- `models_base.Workbook` (dates as integers; only their order matters). -/
structure Workbook where
  id : Nat
  startDate : Int
  endDate : Int
  courseName : String
  courseLeadId : Nat
  learningPlatformId : Nat
  numberOfWeeks : Int
deriving Repr, DecidableEq

/-- `models_base.Week`: primary key (workbook_id, number). -/
structure Week where
  workbookId : Nat
  number : Int
deriving Repr, DecidableEq

/-- `models_base.WeekGraduateAttribute` link row. -/
structure WeekGraduateAttribute where
  weekWorkbookId : Nat
  weekNumber : Int
  graduateAttributeId : Nat
deriving Repr, DecidableEq

/-- `models_base.Activity`. -/
structure Activity where
  id : Nat
  workbookId : Nat
  weekNumber : Int
  name : String
  number : Int
  timeEstimateMinutes : Int
  locationId : Nat
  learningActivityId : Nat
  learningTypeId : Nat
  taskStatusId : Nat
deriving Repr, DecidableEq

/-- `models_base.ActivityStaff` link row. -/
structure ActivityStaff where
  staffId : Nat
  activityId : Nat
deriving Repr, DecidableEq

/-- `models_base.WorkbookContributor` link row. -/
structure WorkbookContributor where
  contributorId : Nat
  workbookId : Nat
deriving Repr, DecidableEq

/-- The database state seen by the endpoints. -/
structure DB where
  users : List User
  groups : List PermissionsGroup
  workbooks : List Workbook
  weeks : List Week
  wgas : List WeekGraduateAttribute
  activities : List Activity
  activityStaff : List ActivityStaff
  contributors : List WorkbookContributor
  locations : List Nat
  learningPlatforms : List Nat
  learningActivities : List Nat
  learningTypes : List Nat
  taskStatuses : List Nat
  nextId : Nat
deriving Repr, DecidableEq

/-- The weeks of one workbook (`Workbook.weeks` relationship, which joins on
`workbook_id`, a plain foreign key to `workbook.id`). -/
def weeksOf (db : DB) (wbId : Nat) : List Week :=
  db.weeks.filter (fun w => w.workbookId == wbId)

/-- The activities joined to a week by the `Week.activities` relationship:
`Activity.week_number` is a foreign key to `week.number` alone, so the join
is on the number only, across workbooks. -/
def weekJoinedActivities (acts : List Activity) (n : Int) : List Activity :=
  acts.filter (fun a => a.weekNumber == n)

/-- The permission block repeated inline in `create_week`, `delete_week`,
`create_activity`, `delete_activity` and `patch_activity`: load the workbook
owner, the contributor ids, the acting user and their permissions group
(each missing row is a 500 via `unwrap`), then allow contributors, the
owner, and members of the "Admin" group. -/
def checkContentPermission (db : DB) (actorId : Nat) (wb : Workbook) :
    Except ApiError Unit :=
  match db.users.find? (fun u => u.id == wb.courseLeadId) with
  | none => .error .internalError
  | some owner =>
    let contributorIds :=
      (db.contributors.filter (fun c => c.workbookId == wb.id)).map
        (fun c => c.contributorId)
    match db.users.find? (fun u => u.id == actorId) with
    | none => .error .internalError
    | some dbUser =>
      match db.groups.find? (fun g => g.id == dbUser.permissionsGroupId) with
      | none => .error .internalError
      | some pg =>
        if !(contributorIds.contains actorId) && !(actorId == owner.id)
            && !(pg.name == "Admin")
        then .error .permissionDenied
        else .ok ()

/-- The permission block of `patch_workbook`: only the owner and admins are
consulted — the contributor list is not loaded at all. -/
def checkMetaPermission (db : DB) (actorId : Nat) (wb : Workbook) :
    Except ApiError Unit :=
  match db.users.find? (fun u => u.id == wb.courseLeadId) with
  | none => .error .internalError
  | some owner =>
    match db.users.find? (fun u => u.id == actorId) with
    | none => .error .internalError
    | some dbUser =>
      match db.groups.find? (fun g => g.id == dbUser.permissionsGroupId) with
      | none => .error .internalError
      | some pg =>
        if !(owner.id == actorId) && !(pg.name == "Admin")
        then .error .permissionDenied
        else .ok ()

/-- The permission block of `delete_workbook`: site admins only. -/
def checkAdminPermission (db : DB) (actorId : Nat) : Except ApiError Unit :=
  match db.users.find? (fun u => u.id == actorId) with
  | none => .error .internalError
  | some dbUser =>
    match db.groups.find? (fun g => g.id == dbUser.permissionsGroupId) with
    | none => .error .internalError
    | some pg =>
      if !(pg.name == "Admin") then .error .permissionDenied else .ok ()

/-- The write phase of `create_week`: append a week numbered
`number_of_weeks + 1` and increment the workbook's counter (the workbook row
is found by its primary key, which the check phase established equals
`wbId`). -/
def createWeekApply (db : DB) (wbId : Nat) (n : Int) : DB × Option Week :=
  let newWeek : Week := { workbookId := wbId, number := n + 1 }
  let workbooks : List Workbook := db.workbooks.map (fun w =>
    if w.id == wbId then { w with numberOfWeeks := w.numberOfWeeks + 1 }
    else w)
  ({ db with workbooks := workbooks, weeks := db.weeks ++ [newWeek] },
   some newWeek)

/-- `create_week` (`POST /api/weeks/`): `Week.model_validate` (the workbook
foreign key must exist, 422), the permission gate, the peek return, then
the write phase. -/
def createWeek (db : DB) (actorId wbId : Nat) (peek : Bool) :
    Except ApiError (DB × Option Week) :=
  if !(db.workbooks.any (fun w => w.id == wbId)) then .error .validationError
  else
    match db.workbooks.find? (fun w => w.id == wbId) with
    | none => .error .internalError  -- unwrap; unreachable after validation
    | some dbWorkbook =>
      match checkContentPermission db actorId dbWorkbook with
      | .error e => .error e
      | .ok () =>
        if peek then .ok (db, none)
        else .ok (createWeekApply db wbId dbWorkbook.numberOfWeeks)

/-- One step of the sibling-renumbering loop at the end of `delete_week`:
every row of the table that belongs to the workbook (`g`), carries ordinal
`n` (`num`), and lies above the deleted number `k`, is shifted down by one
(`upd`).  The source runs one such step per sibling week, reading each
week's number once; the selects inside the loop see the writes of the
earlier iterations (autoflush), which the fold models. -/
def shiftStep {α : Type} (g : α → Bool) (num : α → Int) (upd : α → α)
    (k : Int) (rows : List α) (n : Int) : List α :=
  if k < n then
    rows.map (fun r => if g r && num r == n then upd r else r)
  else rows

/-- The write phase of `delete_week`, in source order: decrement
`number_of_weeks`; move other workbooks' activities that share the week
number to the sentry `-1`; delete the week row (the ORM also deletes its
`WeekGraduateAttribute` link rows); delete the activities joined to the
week by number alone (the ORM also deletes their `ActivityStaff` rows);
restore the sentried activities; then loop over the workbook's remaining
weeks — returned in insertion order, which week creation and the
order-preserving renumberings keep ascending by number, hence the sort —
decrementing every week above the deleted number together with the
`WeekGraduateAttribute` rows and activities keyed by its old number. -/
def deleteWeekApply (db : DB) (wbId : Nat) (k : Int) : DB :=
  let workbooks : List Workbook := db.workbooks.map (fun w =>
    if w.id == wbId then { w with numberOfWeeks := w.numberOfWeeks - 1 }
    else w)
  -- save all other activities / renumber to sentry
  let savedIds : List Nat := ((db.activities.filter (fun a =>
      a.weekNumber == k && !(a.workbookId == wbId))).map (fun a => a.id))
  let acts1 : List Activity := db.activities.map (fun a =>
    if a.weekNumber == k && !(a.workbookId == wbId) then
      { a with weekNumber := -1 }
    else a)
  -- delete the week (and, via the link model, its graduate attributes)
  let weeks1 : List Week := db.weeks.filter (fun w =>
    !(w.workbookId == wbId && w.number == k))
  let wgas1 : List WeekGraduateAttribute := db.wgas.filter (fun g =>
    !(g.weekWorkbookId == wbId && g.weekNumber == k))
  -- delete related activities (joined on the week number alone)
  let deletedActIds : List Nat :=
    (acts1.filter (fun a => a.weekNumber == k)).map (fun a => a.id)
  let acts2 : List Activity := acts1.filter (fun a => !(a.weekNumber == k))
  let staff1 : List ActivityStaff := db.activityStaff.filter (fun s =>
    !(deletedActIds.contains s.activityId))
  -- recreate (restore) the sentried activities
  let acts3 : List Activity := acts2.map (fun a =>
    if savedIds.contains a.id then { a with weekNumber := k } else a)
  -- loop through the workbook's weeks and close the gap
  let nums : List Int := List.insertionSort (· ≤ ·)
    ((weeks1.filter (fun w => w.workbookId == wbId)).map (fun w => w.number))
  let weeks2 : List Week := nums.foldl
    (shiftStep (fun w => w.workbookId == wbId) (fun w => w.number)
      (fun w => { w with number := w.number - 1 }) k) weeks1
  let wgas2 : List WeekGraduateAttribute := nums.foldl
    (shiftStep (fun g => g.weekWorkbookId == wbId) (fun g => g.weekNumber)
      (fun g => { g with weekNumber := g.weekNumber - 1 }) k) wgas1
  let acts4 : List Activity := nums.foldl
    (shiftStep (fun a => a.workbookId == wbId) (fun a => a.weekNumber)
      (fun a => { a with weekNumber := a.weekNumber - 1 }) k) acts3
  { db with workbooks := workbooks, weeks := weeks2, wgas := wgas2,
            activities := acts4, activityStaff := staff1 }

/-- `delete_week` (`DELETE /api/weeks/`): primary-key validation via
`WeekDelete.check_primary_keys` (422), the workbook unwrap, the permission
gate, the peek return, then the write phase (the found week's key equals
`(wbId, k)`). -/
def deleteWeek (db : DB) (actorId wbId : Nat) (k : Int) (peek : Bool) :
    Except ApiError DB :=
  match db.weeks.find? (fun w => w.workbookId == wbId && w.number == k) with
  | none => .error .validationError
  | some dbWeek =>
    match db.workbooks.find? (fun w => w.id == dbWeek.workbookId) with
    | none => .error .internalError
    | some _dbWorkbook =>
      match checkContentPermission db actorId _dbWorkbook with
      | .error e => .error e
      | .ok () =>
        if peek then .ok db
        else .ok (deleteWeekApply db wbId k)

/-- The write phase of `delete_activity`.  The renumbering loop of the
source decrements a local variable (`other_number -= 1`) and re-adds the
untouched row object, so no sibling's stored number ever changes; the loop
is the identity on the table, modelled verbatim below. -/
def deleteActivityApply (db : DB) (dbActivity : Activity) :
    Except ApiError DB :=
  match db.weeks.find? (fun w =>
      w.number == dbActivity.weekNumber
        && w.workbookId == dbActivity.workbookId) with
  | none => .error .internalError
  | some dbWeek =>
    let acts : List Activity := db.activities.map (fun a =>
      if a.weekNumber == dbWeek.number then
        -- other_number -= 1 rebinds the local; the row is unchanged
        let otherShifted : Int :=
          if dbActivity.number < a.number then a.number - 1 else a.number
        let _ := otherShifted
        a
      else a)
    let acts' : List Activity := acts.filter (fun a => !(a.id == dbActivity.id))
    let staff : List ActivityStaff := db.activityStaff.filter (fun s =>
      !(s.activityId == dbActivity.id))
    .ok { db with activities := acts', activityStaff := staff }

/-- `delete_activity` (`DELETE /api/activities/`): existence check (422),
the permission gate, the peek return, then the write phase. -/
def deleteActivity (db : DB) (actorId actId : Nat) (peek : Bool) :
    Except ApiError DB :=
  match db.activities.find? (fun a => a.id == actId) with
  | none => .error .validationError
  | some dbActivity =>
    match db.workbooks.find? (fun w => w.id == dbActivity.workbookId) with
    | none => .error .internalError
    | some dbWorkbook =>
      match checkContentPermission db actorId dbWorkbook with
      | .error e => .error e
      | .ok () =>
        if peek then .ok db
        else deleteActivityApply db dbActivity

/-- `models_base.ActivityUpdate`: every field optional; an absent field is
left out of `model_dump(exclude_unset=True)`. -/
structure ActivityUpdate where
  name : Option String := none
  number : Option Int := none
  timeEstimateMinutes : Option Int := none
  locationId : Option Nat := none
  learningActivityId : Option Nat := none
  learningTypeId : Option Nat := none
  taskStatusId : Option Nat := none
deriving Repr, DecidableEq

/-- `Activity.model_validate` over the merged current+update dict: the
workbook, location, learning-activity, learning-type and task-status
foreign keys must exist (the week number is not validated). -/
def patchActivityValidate (db : DB) (a : Activity) (upd : ActivityUpdate) :
    Bool :=
  db.workbooks.any (fun w => w.id == a.workbookId)
    && db.locations.contains (upd.locationId.getD a.locationId)
    && db.learningActivities.contains
        (upd.learningActivityId.getD a.learningActivityId)
    && db.learningTypes.contains (upd.learningTypeId.getD a.learningTypeId)
    && db.taskStatuses.contains (upd.taskStatusId.getD a.taskStatusId)

/-- The sibling-shift loop of `patch_activity`, over every activity joined
to the linked week (join on the week number alone): moving from `oldNumber`
to `value` decrements the siblings in `(oldNumber, value]` when moving up
and increments the siblings in `[value, oldNumber)` when moving down. -/
def activityShiftPass (weekNum oldNumber value : Int)
    (acts : List Activity) : List Activity :=
  acts.map (fun a =>
    if a.weekNumber == weekNum then
      if oldNumber < value then
        if oldNumber < a.number && a.number ≤ value then
          { a with number := a.number - 1 }
        else a
      else
        if a.number < oldNumber && value ≤ a.number then
          { a with number := a.number + 1 }
        else a
    else a)

/-- The `setattr` loop of `patch_activity`: every field present in the
payload overwrites the stored field. -/
def applyActivityFields (upd : ActivityUpdate) (a : Activity) : Activity :=
  { a with
    name := upd.name.getD a.name,
    number := upd.number.getD a.number,
    timeEstimateMinutes := upd.timeEstimateMinutes.getD a.timeEstimateMinutes,
    locationId := upd.locationId.getD a.locationId,
    learningActivityId := upd.learningActivityId.getD a.learningActivityId,
    learningTypeId := upd.learningTypeId.getD a.learningTypeId,
    taskStatusId := upd.taskStatusId.getD a.taskStatusId }

/-- The write phase of `patch_activity`: the merged-model validation, then —
when the payload sets `number` — the week lookup, the range check against
the count of activities joined to the week, and the sibling-shift loop, the
latter three duplicated verbatim in the source; the moved activity's own
number is only written by the final `setattr` loop, after both passes. -/
def patchActivityApply (db : DB) (dbActivity : Activity)
    (upd : ActivityUpdate) : Except ApiError (DB × Option Activity) :=
  if !(patchActivityValidate db dbActivity upd) then .error .validationError
  else
    match upd.number with
    | none =>
      let acts : List Activity := db.activities.map (fun a =>
        if a.id == dbActivity.id then applyActivityFields upd a else a)
      .ok ({ db with activities := acts },
           some (applyActivityFields upd dbActivity))
    | some value =>
      match db.weeks.find? (fun w =>
          w.number == dbActivity.weekNumber
            && w.workbookId == dbActivity.workbookId) with
      | none => .error .internalError
      | some linkedWeek =>
        let len1 : Int :=
          (weekJoinedActivities db.activities linkedWeek.number).length
        if value < 1 || len1 < value then .error .validationError
        else
          let acts1 : List Activity := activityShiftPass linkedWeek.number
            dbActivity.number value db.activities
          -- the duplicated block: lookup, range check and loop run again
          match db.weeks.find? (fun w =>
              w.number == dbActivity.weekNumber
                && w.workbookId == dbActivity.workbookId) with
          | none => .error .internalError
          | some linkedWeek2 =>
            let len2 : Int :=
              (weekJoinedActivities acts1 linkedWeek2.number).length
            if value < 1 || len2 < value then .error .validationError
            else
              let acts2 : List Activity := activityShiftPass linkedWeek2.number
                dbActivity.number value acts1
              let acts3 : List Activity := acts2.map (fun a =>
                if a.id == dbActivity.id then applyActivityFields upd a else a)
              .ok ({ db with activities := acts3 },
                   some (applyActivityFields upd dbActivity))

/-- `patch_activity` (`PATCH /api/activities/{id}`): existence check (422),
the permission gate, the peek return, then the write phase. -/
def patchActivity (db : DB) (actorId actId : Nat) (upd : ActivityUpdate)
    (peek : Bool) : Except ApiError (DB × Option Activity) :=
  match db.activities.find? (fun a => a.id == actId) with
  | none => .error .validationError
  | some dbActivity =>
    match db.workbooks.find? (fun w => w.id == dbActivity.workbookId) with
    | none => .error .internalError
    | some dbWorkbook =>
      match checkContentPermission db actorId dbWorkbook with
      | .error e => .error e
      | .ok () =>
        if peek then .ok (db, none)
        else patchActivityApply db dbActivity upd

/-- `models_base.WorkbookUpdate`. -/
structure WorkbookUpdate where
  startDate : Option Int := none
  endDate : Option Int := none
  courseName : Option String := none
  courseLeadId : Option Nat := none
deriving Repr, DecidableEq

/-- `Workbook.model_validate` over the merged dict: start date strictly
before end date; the course-lead and learning-platform foreign keys are
checked when truthy (a Python falsy id skips its check). -/
def patchWorkbookValidate (db : DB) (wb : Workbook) (upd : WorkbookUpdate) :
    Bool :=
  let s : Int := upd.startDate.getD wb.startDate
  let e : Int := upd.endDate.getD wb.endDate
  let lead : Nat := upd.courseLeadId.getD wb.courseLeadId
  s < e
    && (lead == 0 || db.users.any (fun u => u.id == lead))
    && (wb.learningPlatformId == 0
        || db.learningPlatforms.contains wb.learningPlatformId)

/-- The `setattr` loop of `patch_workbook`. -/
def applyWorkbookFields (upd : WorkbookUpdate) (wb : Workbook) : Workbook :=
  { wb with
    startDate := upd.startDate.getD wb.startDate,
    endDate := upd.endDate.getD wb.endDate,
    courseName := upd.courseName.getD wb.courseName,
    courseLeadId := upd.courseLeadId.getD wb.courseLeadId }

/-- The write phase of `patch_workbook`: merged-model validation (422),
then the field update on the workbook row. -/
def patchWorkbookApply (db : DB) (wbId : Nat) (dbWorkbook : Workbook)
    (upd : WorkbookUpdate) : Except ApiError (DB × Option Workbook) :=
  if !(patchWorkbookValidate db dbWorkbook upd) then .error .validationError
  else
    let workbooks : List Workbook := db.workbooks.map (fun w =>
      if w.id == wbId then applyWorkbookFields upd w else w)
    .ok ({ db with workbooks := workbooks },
         some (applyWorkbookFields upd dbWorkbook))

/-- `patch_workbook` (`PATCH /api/workbooks/{id}`): existence check (422),
the owner-or-admin gate, the peek return, then the write phase. -/
def patchWorkbook (db : DB) (actorId wbId : Nat) (upd : WorkbookUpdate)
    (peek : Bool) : Except ApiError (DB × Option Workbook) :=
  match db.workbooks.find? (fun w => w.id == wbId) with
  | none => .error .validationError
  | some dbWorkbook =>
    match checkMetaPermission db actorId dbWorkbook with
    | .error e => .error e
    | .ok () =>
      if peek then .ok (db, none)
      else patchWorkbookApply db wbId dbWorkbook upd

/-- The write phase of `delete_workbook`: per week of the workbook, delete
the activities selected by `Activity.week_number == week.number` alone —
the query has no workbook filter — then the week (the ORM also deletes the
week's `WeekGraduateAttribute` rows and each deleted activity's
`ActivityStaff` rows), then the contributor rows and the workbook row. -/
def deleteWorkbookApply (db : DB) (wbId : Nat) : DB :=
  let wbWeeks : List Week := db.weeks.filter (fun w => w.workbookId == wbId)
  let deletedActIds : List Nat := (db.activities.filter (fun a =>
    wbWeeks.any (fun w => a.weekNumber == w.number))).map (fun a => a.id)
  let acts : List Activity := db.activities.filter (fun a =>
    !(wbWeeks.any (fun w => a.weekNumber == w.number)))
  let staff : List ActivityStaff := db.activityStaff.filter (fun s =>
    !(deletedActIds.contains s.activityId))
  let weeks : List Week := db.weeks.filter (fun w => !(w.workbookId == wbId))
  let wgas : List WeekGraduateAttribute := db.wgas.filter (fun g =>
    !(g.weekWorkbookId == wbId
      && wbWeeks.any (fun w => g.weekNumber == w.number)))
  let contributors : List WorkbookContributor := db.contributors.filter
    (fun c => !(c.workbookId == wbId))
  let workbooks : List Workbook := db.workbooks.filter (fun w =>
    !(w.id == wbId))
  { db with workbooks := workbooks, weeks := weeks, wgas := wgas,
            activities := acts, activityStaff := staff,
            contributors := contributors }

/-- `delete_workbook` (`DELETE /api/workbooks/`): existence check (422),
the admin-only gate, the peek return (the peek path's pending deletes are
rolled back with the request session, so nothing is committed), then the
write phase. -/
def deleteWorkbook (db : DB) (actorId wbId : Nat) (peek : Bool) :
    Except ApiError DB :=
  match db.workbooks.find? (fun w => w.id == wbId) with
  | none => .error .validationError
  | some _dbWorkbook =>
    match checkAdminPermission db actorId with
    | .error e => .error e
    | .ok () =>
      if peek then .ok db
      else .ok (deleteWorkbookApply db wbId)

/-- `models_base.ActivityCreate` (no id, no number). -/
structure ActivityCreate where
  workbookId : Nat
  weekNumber : Int
  name : String
  timeEstimateMinutes : Int
  locationId : Nat
  learningActivityId : Nat
  learningTypeId : Nat
  taskStatusId : Nat
deriving Repr, DecidableEq

/-- `Activity.model_validate` on creation (the week number is not
validated by the model, only the five plain foreign keys). -/
def activityCreateValidate (db : DB) (c : ActivityCreate) : Bool :=
  db.workbooks.any (fun w => w.id == c.workbookId)
    && db.locations.contains c.locationId
    && db.learningActivities.contains c.learningActivityId
    && db.learningTypes.contains c.learningTypeId
    && db.taskStatuses.contains c.taskStatusId

/-- The write phase of `create_activity`: the week unwrap (500 when the
week is missing) and `number := len(linked_week.activities) + 1` — the
count of the activities joined to the week by number alone — computed twice
identically in the source. -/
def createActivityApply (db : DB) (c : ActivityCreate) :
    Except ApiError (DB × Option Activity) :=
  match db.weeks.find? (fun w =>
      w.number == c.weekNumber && w.workbookId == c.workbookId) with
  | none => .error .internalError
  | some linkedWeek =>
    let n1 : Int :=
      (weekJoinedActivities db.activities linkedWeek.number).length + 1
    -- the identical assignment is repeated in the source
    let n2 : Int :=
      (weekJoinedActivities db.activities linkedWeek.number).length + 1
    let _ := n1
    let newActivity : Activity :=
      { id := db.nextId, workbookId := c.workbookId,
        weekNumber := c.weekNumber, name := c.name, number := n2,
        timeEstimateMinutes := c.timeEstimateMinutes,
        locationId := c.locationId,
        learningActivityId := c.learningActivityId,
        learningTypeId := c.learningTypeId,
        taskStatusId := c.taskStatusId }
    .ok ({ db with activities := db.activities ++ [newActivity],
                   nextId := db.nextId + 1 }, some newActivity)

/-- `create_activity` (`POST /api/activities/`): validation (422), the
permission gate, the peek return, then the write phase. -/
def createActivity (db : DB) (actorId : Nat) (c : ActivityCreate)
    (peek : Bool) : Except ApiError (DB × Option Activity) :=
  if !(activityCreateValidate db c) then .error .validationError
  else
    match db.workbooks.find? (fun w => w.id == c.workbookId) with
    | none => .error .internalError
    | some dbWorkbook =>
      match checkContentPermission db actorId dbWorkbook with
      | .error e => .error e
      | .ok () =>
        if peek then .ok (db, none)
        else createActivityApply db c

/-- The activity-copy loop of `duplicate_workbook`: each source activity is
recreated against the new workbook with a fresh id, preserving the week
number, the ordinal and every classification reference, and its
`ActivityStaff` rows are recreated against the fresh id. -/
def copyActsAndStaff (staff : List ActivityStaff) (newWbId : Nat) :
    Nat → List Activity → List Activity × List ActivityStaff
  | _, [] => ([], [])
  | nid, a :: rest =>
    let newA : Activity := { a with id := nid, workbookId := newWbId }
    let newStaff : List ActivityStaff :=
      (staff.filter (fun s => s.activityId == a.id)).map
        (fun s => { staffId := s.staffId, activityId := nid })
    let tail := copyActsAndStaff staff newWbId (nid + 1) rest
    (newA :: tail.1, newStaff ++ tail.2)

/-- The write phase of `duplicate_workbook`: a new workbook led by the
acting user with " - COPY" appended to the name, week copies with the same
numbers, the week-graduate-attribute copies, the activity copies with
fresh ids and verbatim numbers together with their staff rows, and the
contributor copies. -/
def duplicateWorkbookApply (db : DB) (actorId wbId : Nat)
    (original : Workbook) : DB × Option Workbook :=
  let newWb : Workbook :=
    { id := db.nextId, startDate := original.startDate,
      endDate := original.endDate,
      courseName := original.courseName ++ " - COPY",
      courseLeadId := actorId,
      learningPlatformId := original.learningPlatformId,
      numberOfWeeks := original.numberOfWeeks }
  let srcWeeks : List Week := db.weeks.filter (fun w => w.workbookId == wbId)
  let newWeeks : List Week := srcWeeks.map (fun w =>
    { workbookId := newWb.id, number := w.number })
  let srcWgas : List WeekGraduateAttribute :=
    db.wgas.filter (fun g => g.weekWorkbookId == wbId)
  let newWgas : List WeekGraduateAttribute := srcWgas.map (fun g =>
    { weekWorkbookId := newWb.id, weekNumber := g.weekNumber,
      graduateAttributeId := g.graduateAttributeId })
  let srcActs : List Activity :=
    db.activities.filter (fun a => a.workbookId == wbId)
  let copied : List Activity × List ActivityStaff :=
    copyActsAndStaff db.activityStaff newWb.id (db.nextId + 1) srcActs
  let srcContribs : List WorkbookContributor :=
    db.contributors.filter (fun c => c.workbookId == wbId)
  let newContribs : List WorkbookContributor := srcContribs.map (fun c =>
    { contributorId := c.contributorId, workbookId := newWb.id })
  ({ db with
      workbooks := db.workbooks ++ [newWb],
      weeks := db.weeks ++ newWeeks,
      wgas := db.wgas ++ newWgas,
      activities := db.activities ++ copied.1,
      activityStaff := db.activityStaff ++ copied.2,
      contributors := db.contributors ++ newContribs,
      nextId := db.nextId + 1 + srcActs.length },
   some newWb)

/-- `duplicate_workbook` (`POST /api/workbooks/{id}/duplicate`): user and
workbook existence checks (422), the peek return, then the deep copy.
There is no permission gate in this endpoint. -/
def duplicateWorkbook (db : DB) (actorId wbId : Nat) (peek : Bool) :
    Except ApiError (DB × Option Workbook) :=
  match db.users.find? (fun u => u.id == actorId) with
  | none => .error .validationError
  | some _dbUser =>
    match db.workbooks.find? (fun w => w.id == wbId) with
    | none => .error .validationError
    | some original =>
      if peek then .ok (db, none)
      else .ok (duplicateWorkbookApply db actorId wbId original)

/-- A committed week-level operation, for the dense-sequence invariant. -/
inductive WeekOp where
  | create (actorId wbId : Nat)
  | delete (actorId wbId : Nat) (number : Int)
deriving Repr, DecidableEq

/-- Run one week operation; a rejected call leaves the database unchanged
(the spec only quantifies over successfully committed operations). -/
def applyWeekOp (db : DB) (op : WeekOp) : DB :=
  match op with
  | .create actorId wbId =>
    match createWeek db actorId wbId false with
    | .ok (db', _) => db'
    | .error _ => db
  | .delete actorId wbId n =>
    match deleteWeek db actorId wbId n false with
    | .ok db' => db'
    | .error _ => db

/-- Run a sequence of week operations. -/
def applyWeekOps (db : DB) (ops : List WeekOp) : DB :=
  ops.foldl applyWeekOp db

/-- The list of week numbers 1..n (empty when `n ≤ 0`). -/
def intRange (n : Int) : List Int :=
  (List.range n.toNat).map (fun i => ((i + 1 : Nat) : Int))

/-- Dense-sequence invariant I1/I5: within every workbook the week numbers
are exactly 1..numberOfWeeks, each once, and the stored counter equals the
live count of the workbook's weeks. -/
def WeekInv (db : DB) : Prop :=
  ∀ wb ∈ db.workbooks,
    ((weeksOf db wb.id).map (fun w => w.number)).Perm
        (intRange wb.numberOfWeeks)
      ∧ wb.numberOfWeeks = ((weeksOf db wb.id).length : Int)

instance : DecidablePred WeekInv := fun db => by
  unfold WeekInv; infer_instance

/-! ## Concrete states used as witnesses and counterexamples

User 1 is a site admin, user 2 leads workbook 20, user 3 is a contributor
of workbook 20, user 4 is an unrelated authenticated user.  The reference
tables hold location 40, platform 30, learning activity 41, learning type
42 and task status 43. -/

/-- An activity with the shared classification references. -/
def mkActivity (id wb : Nat) (wk num : Int) : Activity :=
  { id := id, workbookId := wb, weekNumber := wk, name := "a", number := num,
    timeEstimateMinutes := 60, locationId := 40, learningActivityId := 41,
    learningTypeId := 42, taskStatusId := 43 }

/-- One workbook, one week, four activities numbered 1..4 (the docstring
example of `patch_activity`). -/
def dbFour : DB :=
  { users := [⟨1, "admin", 10⟩, ⟨2, "lead", 11⟩, ⟨3, "contrib", 11⟩,
      ⟨4, "outsider", 11⟩],
    groups := [⟨10, "Admin"⟩, ⟨11, "User"⟩],
    workbooks := [⟨20, 0, 100, "CS", 2, 30, 1⟩],
    weeks := [⟨20, 1⟩],
    wgas := [],
    activities := [mkActivity 101 20 1 1, mkActivity 102 20 1 2,
      mkActivity 103 20 1 3, mkActivity 104 20 1 4],
    activityStaff := [],
    contributors := [⟨3, 20⟩],
    locations := [40], learningPlatforms := [30], learningActivities := [41],
    learningTypes := [42], taskStatuses := [43], nextId := 200 }

/-- Workbook 20 with weeks 1..4 (one activity and one graduate-attribute
row per week, staff on two activities) next to workbook 21 with weeks 1..2
and an activity in its week 2 — the week number shared with workbook 20. -/
def dbWeeks : DB :=
  { users := [⟨1, "admin", 10⟩, ⟨2, "lead", 11⟩, ⟨3, "contrib", 11⟩,
      ⟨4, "outsider", 11⟩],
    groups := [⟨10, "Admin"⟩, ⟨11, "User"⟩],
    workbooks := [⟨20, 0, 100, "CS", 2, 30, 4⟩, ⟨21, 0, 100, "Maths", 2, 30, 2⟩],
    weeks := [⟨20, 1⟩, ⟨20, 2⟩, ⟨20, 3⟩, ⟨20, 4⟩, ⟨21, 1⟩, ⟨21, 2⟩],
    wgas := [⟨20, 1, 50⟩, ⟨20, 2, 50⟩, ⟨20, 3, 50⟩, ⟨20, 4, 50⟩, ⟨21, 2, 50⟩],
    activities := [mkActivity 101 20 1 1, mkActivity 102 20 2 1,
      mkActivity 103 20 3 1, mkActivity 104 20 4 1, mkActivity 105 21 2 1],
    activityStaff := [⟨2, 102⟩, ⟨2, 103⟩],
    contributors := [⟨3, 20⟩],
    locations := [40], learningPlatforms := [30], learningActivities := [41],
    learningTypes := [42], taskStatuses := [43], nextId := 200 }

deriving instance DecidableEq for Except

/-- Project an activity-endpoint result to (id, number) pairs. -/
def activityNumbersOf (r : Except ApiError (DB × Option Activity)) :
    List (Nat × Int) :=
  match r with
  | .ok (db', _) => db'.activities.map (fun a => (a.id, a.number))
  | .error _ => []

/-- Project a delete-endpoint result to (id, number) pairs. -/
def activityNumbersAfterDelete (r : Except ApiError DB) : List (Nat × Int) :=
  match r with
  | .ok db' => db'.activities.map (fun a => (a.id, a.number))
  | .error _ => []

/-- A payload that renames an activity and sets nothing else. -/
def updName : ActivityUpdate := { name := some "renamed" }

/-- The state expected after renaming activity 101 of `dbFour`. -/
def dbFourRenamed : DB :=
  { dbFour with activities := dbFour.activities.map (fun a =>
      if a.id == 101 then applyActivityFields updName a else a) }

/-- A payload that renames a workbook and sets nothing else. -/
def updCourseName : WorkbookUpdate := { courseName := some "Renamed" }

/-! ## Generic lemmas about the renumbering machinery -/

/-- Folding the delete_week shift step over a weakly ascending list of
ordinals decrements each row whose ordinal occurs in the list above the
deleted number exactly once: a shifted row lands strictly below every
ordinal still to be processed, so no row is shifted twice. -/
theorem foldl_shiftStep_eq_map {α : Type} (g : α → Bool) (num : α → Int)
    (upd : α → α) (hnum : ∀ a, num (upd a) = num a - 1) (k : Int) :
    ∀ l : List Int, l.Sorted (· ≤ ·) → ∀ rows : List α,
      l.foldl (shiftStep g num upd k) rows
        = rows.map (fun r =>
            if g r ∧ num r ∈ l ∧ k < num r then upd r else r) := by
  intro l
  induction l with
  | nil =>
    intro _ rows
    simp
  | cons n t ih =>
    intro hsort rows
    have hle : ∀ m ∈ t, n ≤ m := (List.pairwise_cons.mp hsort).1
    have hsort' : t.Sorted (· ≤ ·) := (List.pairwise_cons.mp hsort).2
    rw [List.foldl_cons, ih hsort']
    unfold shiftStep
    by_cases hkn : k < n
    · rw [if_pos hkn, List.map_map]
      refine List.map_congr_left (fun r _ => ?_)
      simp only [Function.comp]
      by_cases hgr : g r = true
      · by_cases hnr : num r = n
        · have h1 : (g r && (num r == n)) = true := by
            simp [hgr, hnr]
          rw [h1]
          simp only [if_true]
          have h2 : ¬(g (upd r) ∧ num (upd r) ∈ t ∧ k < num (upd r)) := by
            intro hmem
            have := hle _ hmem.2.1
            rw [hnum, hnr] at this
            omega
          rw [if_neg h2, if_pos ⟨hgr, by simp [hnr], hnr ▸ hkn⟩]
        · have h1 : (g r && (num r == n)) = false := by
            simp [hnr]
          rw [h1]
          simp only [Bool.false_eq_true, if_false]
          by_cases hc : g r ∧ num r ∈ t ∧ k < num r
          · rw [if_pos hc, if_pos ⟨hc.1, List.mem_cons_of_mem _ hc.2.1, hc.2.2⟩]
          · rw [if_neg hc, if_neg ?_]
            intro hc'
            rcases hc' with ⟨hgr', hmem, hlt⟩
            rcases List.mem_cons.mp hmem with h | h
            · exact hnr h
            · exact hc ⟨hgr', h, hlt⟩
      · have h1 : (g r && (num r == n)) = false := by
          simp [Bool.eq_false_iff.mpr hgr]
        rw [h1]
        simp only [Bool.false_eq_true, if_false]
        rw [if_neg (fun hc => hgr hc.1), if_neg (fun hc => hgr hc.1)]
    · rw [if_neg hkn]
      refine List.map_congr_left (fun r _ => ?_)
      by_cases hc : g r ∧ num r ∈ t ∧ k < num r
      · rw [if_pos hc, if_pos ⟨hc.1, List.mem_cons_of_mem _ hc.2.1, hc.2.2⟩]
      · rw [if_neg hc, if_neg ?_]
        intro hc'
        rcases hc' with ⟨hgr', hmem, hlt⟩
        rcases List.mem_cons.mp hmem with h | h
        · exact hkn (h ▸ hlt)
        · exact hc ⟨hgr', h, hlt⟩

/-- Membership in `intRange`. -/
theorem mem_intRange_iff {m n : Int} : m ∈ intRange n ↔ 1 ≤ m ∧ m ≤ n := by
  unfold intRange
  simp only [List.mem_map, List.mem_range]
  constructor
  · rintro ⟨i, hi, rfl⟩
    omega
  · intro h
    exact ⟨(m - 1).toNat, by omega, by omega⟩

/-- Unfolding 1..(n+1) from the right. -/
theorem intRange_succ {n : Int} (hn : 0 ≤ n) :
    intRange (n + 1) = intRange n ++ [n + 1] := by
  unfold intRange
  have h1 : (n + 1).toNat = n.toNat + 1 := by omega
  rw [h1, List.range_succ, List.map_append]
  simp only [List.map_cons, List.map_nil]
  have h2 : ((n.toNat + 1 : Nat) : Int) = n + 1 := by omega
  rw [h2]

/-- Remove-and-close on a dense range, `Nat`-indexed form. -/
theorem intRange_remove_shift_nat (j : Nat) :
    ∀ k : Int, 1 ≤ k → k ≤ (j : Int) →
      ((intRange (j : Int)).filter (fun n => !(n == k))).map
          (fun n => if k < n then n - 1 else n)
        = intRange ((j : Int) - 1) := by
  induction j with
  | zero =>
    intro k hk1 hk2
    have : (1 : Int) ≤ 0 := le_trans hk1 (by exact_mod_cast hk2)
    omega
  | succ j ihj =>
    intro k hk1 hk2
    have hcast : ((j + 1 : Nat) : Int) = (j : Int) + 1 := by push_cast; ring
    rw [hcast]
    have hrange : intRange ((j : Int) + 1) = intRange (j : Int) ++ [(j : Int) + 1] :=
      intRange_succ (by omega)
    rw [hrange, List.filter_append, List.map_append]
    by_cases hkj : k = (j : Int) + 1
    · have hall : ∀ n ∈ intRange (j : Int), (!(n == k)) = true := by
        intro n hn
        have := mem_intRange_iff.mp hn
        simp only [Bool.not_eq_eq_eq_not, Bool.not_true, beq_eq_false_iff_ne]
        omega
      rw [List.filter_eq_self.mpr hall]
      have hlast : List.filter (fun n => !(n == k)) [(j : Int) + 1] = [] := by
        simp [hkj]
      rw [hlast]
      have hid : ∀ n ∈ intRange (j : Int),
          (if k < n then n - 1 else n) = n := by
        intro n hn
        have := mem_intRange_iff.mp hn
        rw [if_neg (by omega)]
      rw [List.map_nil, List.append_nil, List.map_congr_left hid, List.map_id']
      norm_num
    · have hkj' : k ≤ (j : Int) := by omega
      have hlast : List.filter (fun n => !(n == k)) [(j : Int) + 1]
          = [(j : Int) + 1] := by
        simp only [List.filter_cons, List.filter_nil]
        rw [if_pos]
        simp only [Bool.not_eq_eq_eq_not, Bool.not_true, beq_eq_false_iff_ne]
        omega
      rw [hlast]
      have hmap : ([(j : Int) + 1].map (fun n => if k < n then n - 1 else n))
          = [(j : Int)] := by
        simp only [List.map_cons, List.map_nil]
        rw [if_pos (by omega)]
        norm_num
      rw [hmap, ihj k hk1 hkj']
      have hj0 : 0 ≤ (j : Int) - 1 := by omega
      rw [show (j : Int) + 1 - 1 = ((j : Int) - 1) + 1 by ring,
          intRange_succ hj0]
      norm_num

/-- Remove-and-close on a dense range: dropping `k` from 1..N and shifting
everything above `k` down by one yields exactly 1..(N-1). -/
theorem intRange_remove_shift {N k : Int} (h1 : 1 ≤ k) (h2 : k ≤ N) :
    ((intRange N).filter (fun n => !(n == k))).map
        (fun n => if k < n then n - 1 else n)
      = intRange (N - 1) := by
  have hN : N = (N.toNat : Int) := by omega
  rw [hN]
  exact intRange_remove_shift_nat N.toNat k h1 (by omega)

/-! ## Characterizing the delete_week write phase -/

/-- The week table after `delete_week`: the deleted week's row is gone and
every week of the workbook above the deleted number is decremented. -/
theorem deleteWeekApply_weeks (db : DB) (wbId : Nat) (k : Int) :
    (deleteWeekApply db wbId k).weeks
      = (db.weeks.filter (fun w => !(w.workbookId == wbId && w.number == k))).map
          (fun w => if w.workbookId == wbId ∧ k < w.number then
              { w with number := w.number - 1 } else w) := by
  simp only [deleteWeekApply]
  rw [@foldl_shiftStep_eq_map Week (fun w => w.workbookId == wbId)
      (fun w => w.number) (fun w => { w with number := w.number - 1 })
      (fun _ => rfl) k _ (List.sorted_insertionSort _ _)]
  refine List.map_congr_left (fun w hw => ?_)
  by_cases hg : (w.workbookId == wbId) = true
  · by_cases hlt : k < w.number
    · have hmem : w.number ∈ List.insertionSort (· ≤ ·)
          ((List.filter (fun w => w.workbookId == wbId)
            (List.filter (fun w => !(w.workbookId == wbId && w.number == k))
              db.weeks)).map (fun w => w.number)) := by
        refine (List.perm_insertionSort _ _).mem_iff.mpr ?_
        exact List.mem_map.mpr ⟨w, List.mem_filter.mpr ⟨hw, hg⟩, rfl⟩
      rw [if_pos ⟨hg, hmem, hlt⟩, if_pos ⟨hg, hlt⟩]
    · rw [if_neg (fun h => hlt h.2.2), if_neg (fun h => hlt h.2)]
  · rw [if_neg (fun h => hg h.1), if_neg (fun h => hg h.1)]

/-- The WeekGraduateAttribute table after `delete_week`: the deleted week's
link rows are gone and, assuming referential integrity of the link rows
above the deleted number, every link row of the workbook keyed above the
deleted number is decremented along with its week. -/
theorem deleteWeekApply_wgas (db : DB) (wbId : Nat) (k : Int)
    (hfk : ∀ g ∈ db.wgas, g.weekWorkbookId = wbId → k < g.weekNumber →
      ∃ w ∈ db.weeks, w.workbookId = wbId ∧ w.number = g.weekNumber) :
    (deleteWeekApply db wbId k).wgas
      = (db.wgas.filter (fun g =>
            !(g.weekWorkbookId == wbId && g.weekNumber == k))).map
          (fun g => if g.weekWorkbookId == wbId ∧ k < g.weekNumber then
              { g with weekNumber := g.weekNumber - 1 } else g) := by
  simp only [deleteWeekApply]
  rw [@foldl_shiftStep_eq_map WeekGraduateAttribute
      (fun g => g.weekWorkbookId == wbId) (fun g => g.weekNumber)
      (fun g => { g with weekNumber := g.weekNumber - 1 })
      (fun _ => rfl) k _ (List.sorted_insertionSort _ _)]
  refine List.map_congr_left (fun g hgmem => ?_)
  have hg' : g ∈ db.wgas := (List.mem_filter.mp hgmem).1
  by_cases hw : (g.weekWorkbookId == wbId) = true
  · by_cases hlt : k < g.weekNumber
    · obtain ⟨w, hwmem, hwb, hwn⟩ := hfk g hg' (by simpa using hw) hlt
      have hkey : (!(w.workbookId == wbId && w.number == k)) = true := by
        simp only [hwb, hwn, beq_self_eq_true, Bool.true_and,
          Bool.not_eq_eq_eq_not, Bool.not_true, beq_eq_false_iff_ne]
        omega
      have hmem : g.weekNumber ∈ List.insertionSort (· ≤ ·)
          ((List.filter (fun w => w.workbookId == wbId)
            (List.filter (fun w => !(w.workbookId == wbId && w.number == k))
              db.weeks)).map (fun w => w.number)) := by
        refine (List.perm_insertionSort _ _).mem_iff.mpr ?_
        exact List.mem_map.mpr ⟨w, List.mem_filter.mpr
          ⟨List.mem_filter.mpr ⟨hwmem, hkey⟩, by simp [hwb]⟩, hwn⟩
      rw [if_pos ⟨hw, hmem, hlt⟩, if_pos ⟨hw, hlt⟩]
    · rw [if_neg (fun h => hlt h.2.2), if_neg (fun h => hlt h.2)]
  · rw [if_neg (fun h => hw h.1), if_neg (fun h => hw h.1)]

/-- The sentry dance of `delete_week` on one activity row, given that the
saved-id list recognises exactly the foreign-workbook rows sharing the week
number: moving those rows to `-1`, deleting the rows still carrying the
number, and restoring the saved rows amounts to deleting exactly the
workbook's own rows of that week. -/
theorem sentry_restore_eq_aux (wbId : Nat) (k : Int) (hk : 1 ≤ k)
    (saved : List Nat) :
    ∀ l : List Activity,
      (∀ a ∈ l, saved.contains a.id
          = (a.weekNumber == k && !(a.workbookId == wbId))) →
      ((l.map (fun a =>
          if a.weekNumber == k && !(a.workbookId == wbId) then
            { a with weekNumber := -1 } else a)).filter
            (fun a => !(a.weekNumber == k))).map
        (fun a => if saved.contains a.id then { a with weekNumber := k }
          else a)
      = l.filter (fun a => !(a.workbookId == wbId && a.weekNumber == k)) := by
  intro l
  induction l with
  | nil => intro _; rfl
  | cons a t ih =>
    intro hsaved
    have hsa := hsaved a (List.mem_cons_self _ _)
    have iht := ih (fun b hb => hsaved b (List.mem_cons_of_mem _ hb))
    simp only [List.map_cons, List.filter_cons]
    by_cases hp : (a.weekNumber == k && !(a.workbookId == wbId)) = true
    · rw [if_pos hp]
      have hkeep : (!(({ a with weekNumber := -1 } : Activity).weekNumber
          == k)) = true := by
        simp only [Bool.not_eq_eq_eq_not, Bool.not_true, beq_eq_false_iff_ne]
        omega
      rw [if_pos hkeep, List.map_cons]
      have hid : ({ a with weekNumber := -1 } : Activity).id = a.id := rfl
      rw [hid] at *
      have hcontains : saved.contains a.id = true := by rw [hsa]; exact hp
      rw [if_pos hcontains]
      have hwk : a.weekNumber = k := by
        have := (Bool.and_eq_true _ _).mp hp
        exact beq_iff_eq.mp this.1
      have hrestore : ({ ({ a with weekNumber := -1 } : Activity) with
          weekNumber := k } : Activity) = a := by
        cases a; simp_all
      rw [hrestore]
      have hnot : (!(a.workbookId == wbId && a.weekNumber == k)) = true := by
        have := (Bool.and_eq_true _ _).mp hp
        simp only [Bool.not_eq_eq_eq_not, Bool.not_true,
          Bool.and_eq_false_iff]
        left
        simpa using this.2
      rw [if_pos hnot, iht]
    · rw [if_neg hp]
      by_cases hwk : (a.weekNumber == k) = true
      · have hwbid : (a.workbookId == wbId) = true := by
          rcases Bool.and_eq_false_iff.mp (Bool.eq_false_iff.mpr hp) with h | h
          · exact absurd hwk (by simp [h])
          · simpa using h
        have hdrop : (!(a.weekNumber == k)) = false := by simp [hwk]
        rw [hdrop]
        simp only [Bool.false_eq_true, if_false]
        have hdrop' : (!(a.workbookId == wbId && a.weekNumber == k)) = false := by
          simp [hwk, hwbid]
        rw [hdrop']
        simp only [Bool.false_eq_true, if_false]
        exact iht
      · have hkeep : (!(a.weekNumber == k)) = true := by simp [hwk]
        rw [if_pos hkeep, List.map_cons]
        have hcontains : saved.contains a.id = false := by
          rw [hsa]; simp [hwk]
        rw [if_neg (by rw [hcontains]; exact Bool.false_ne_true)]
        have hnot : (!(a.workbookId == wbId && a.weekNumber == k)) = true := by
          simp [hwk]
        rw [if_pos hnot, iht]

/-- With distinct activity ids, the saved-id list of `delete_week`
recognises exactly the foreign-workbook activities sharing the deleted
week's number. -/
theorem savedIds_spec (wbId : Nat) (k : Int) (l : List Activity)
    (hids : (l.map (fun a => a.id)).Nodup) :
    ∀ a ∈ l,
      (((l.filter (fun a => a.weekNumber == k && !(a.workbookId == wbId))).map
          (fun a => a.id)).contains a.id)
        = (a.weekNumber == k && !(a.workbookId == wbId)) := by
  intro a ha
  by_cases hp : (a.weekNumber == k && !(a.workbookId == wbId)) = true
  · rw [hp]
    have hmem : a.id ∈ (l.filter (fun a =>
        a.weekNumber == k && !(a.workbookId == wbId))).map (fun a => a.id) :=
      List.mem_map.mpr ⟨a, List.mem_filter.mpr ⟨ha, hp⟩, rfl⟩
    exact List.elem_iff.mpr hmem
  · rw [Bool.eq_false_iff.mpr hp]
    refine Bool.eq_false_iff.mpr (fun hcon => hp ?_)
    have hmem := List.elem_iff.mp hcon
    obtain ⟨b, hbmem, hbid⟩ := List.mem_map.mp hmem
    have hb := List.mem_filter.mp hbmem
    have hba : b = a := List.inj_on_of_nodup_map hids hb.1 ha hbid
    exact hba ▸ hb.2

/-- The activities still carrying the deleted week number after the sentry
step are exactly the workbook's own activities of that week. -/
theorem sentry_filter_eq (wbId : Nat) (k : Int) (hk : 1 ≤ k)
    (l : List Activity) :
    (l.map (fun a =>
        if a.weekNumber == k && !(a.workbookId == wbId) then
          { a with weekNumber := -1 } else a)).filter
      (fun a => a.weekNumber == k)
      = l.filter (fun a => a.workbookId == wbId && a.weekNumber == k) := by
  induction l with
  | nil => rfl
  | cons a t ih =>
    simp only [List.map_cons, List.filter_cons]
    by_cases hp : (a.weekNumber == k && !(a.workbookId == wbId)) = true
    · rw [if_pos hp]
      have hparts := (Bool.and_eq_true _ _).mp hp
      have hwb : (a.workbookId == wbId) = false := by simpa using hparts.2
      have hdrop : ((({ a with weekNumber := -1 } : Activity)).weekNumber
          == k) = false := by
        simp only [beq_eq_false_iff_ne]
        omega
      rw [hdrop]
      have hdrop' : (a.workbookId == wbId && a.weekNumber == k) = false := by
        simp [hwb]
      rw [hdrop']
      simp only [Bool.false_eq_true, if_false]
      exact ih
    · rw [if_neg hp]
      by_cases hwk : (a.weekNumber == k) = true
      · have hwbid : (a.workbookId == wbId) = true := by
          rcases Bool.and_eq_false_iff.mp (Bool.eq_false_iff.mpr hp) with h | h
          · exact absurd hwk (by simp [h])
          · simpa using h
        have hown : (a.workbookId == wbId && a.weekNumber == k) = true := by
          simp [hwk, hwbid]
        rw [if_pos hwk, if_pos hown, ih]
      · have hown : (a.workbookId == wbId && a.weekNumber == k) = false := by
          simp [hwk]
        rw [if_neg hwk, hown]
        simp only [Bool.false_eq_true, if_false]
        exact ih

/-- The activity table after `delete_week`: the deleted week's own
activities are gone, other workbooks' activities survive the sentry round
trip unchanged, and — assuming referential integrity above the deleted
number — every activity of the workbook keyed above the deleted number is
decremented along with its week. -/
theorem deleteWeekApply_activities (db : DB) (wbId : Nat) (k : Int)
    (hk : 1 ≤ k)
    (hids : (db.activities.map (fun a => a.id)).Nodup)
    (hfk : ∀ a ∈ db.activities, a.workbookId = wbId → k < a.weekNumber →
      ∃ w ∈ db.weeks, w.workbookId = wbId ∧ w.number = a.weekNumber) :
    (deleteWeekApply db wbId k).activities
      = (db.activities.filter (fun a =>
            !(a.workbookId == wbId && a.weekNumber == k))).map
          (fun a => if a.workbookId == wbId ∧ k < a.weekNumber then
              { a with weekNumber := a.weekNumber - 1 } else a) := by
  simp only [deleteWeekApply]
  rw [sentry_restore_eq_aux wbId k hk _ db.activities
      (savedIds_spec wbId k db.activities hids)]
  rw [@foldl_shiftStep_eq_map Activity (fun a => a.workbookId == wbId)
      (fun a => a.weekNumber) (fun a => { a with weekNumber := a.weekNumber - 1 })
      (fun _ => rfl) k _ (List.sorted_insertionSort _ _)]
  refine List.map_congr_left (fun a hamem => ?_)
  have ha' : a ∈ db.activities := (List.mem_filter.mp hamem).1
  by_cases hw : (a.workbookId == wbId) = true
  · by_cases hlt : k < a.weekNumber
    · obtain ⟨w, hwmem, hwb, hwn⟩ := hfk a ha' (by simpa using hw) hlt
      have hkey : (!(w.workbookId == wbId && w.number == k)) = true := by
        simp only [hwb, hwn, beq_self_eq_true, Bool.true_and,
          Bool.not_eq_eq_eq_not, Bool.not_true, beq_eq_false_iff_ne]
        omega
      have hmem : a.weekNumber ∈ List.insertionSort (· ≤ ·)
          ((List.filter (fun w => w.workbookId == wbId)
            (List.filter (fun w => !(w.workbookId == wbId && w.number == k))
              db.weeks)).map (fun w => w.number)) := by
        refine (List.perm_insertionSort _ _).mem_iff.mpr ?_
        exact List.mem_map.mpr ⟨w, List.mem_filter.mpr
          ⟨List.mem_filter.mpr ⟨hwmem, hkey⟩, by simp [hwb]⟩, hwn⟩
      rw [if_pos ⟨hw, hmem, hlt⟩, if_pos ⟨hw, hlt⟩]
    · rw [if_neg (fun h => hlt h.2.2), if_neg (fun h => hlt h.2)]
  · rw [if_neg (fun h => hw h.1), if_neg (fun h => hw h.1)]

/-- The staff table after `delete_week`: exactly the staff rows of the
deleted week's own activities are gone (the ORM deletes the link rows of
each deleted activity). -/
theorem deleteWeekApply_staff (db : DB) (wbId : Nat) (k : Int)
    (hk : 1 ≤ k) :
    (deleteWeekApply db wbId k).activityStaff
      = db.activityStaff.filter (fun s =>
          !(((db.activities.filter (fun a =>
              a.workbookId == wbId && a.weekNumber == k)).map
              (fun a => a.id)).contains s.activityId)) := by
  simp only [deleteWeekApply]
  rw [sentry_filter_eq wbId k hk db.activities]

/-- The workbook table after `delete_week`: the workbook's counter is
decremented; nothing else changes. -/
theorem deleteWeekApply_workbooks (db : DB) (wbId : Nat) (k : Int) :
    (deleteWeekApply db wbId k).workbooks
      = db.workbooks.map (fun w =>
          if w.id == wbId then { w with numberOfWeeks := w.numberOfWeeks - 1 }
          else w) := rfl

/-- `delete_week` leaves the remaining tables untouched. -/
theorem deleteWeekApply_frame (db : DB) (wbId : Nat) (k : Int) :
    (deleteWeekApply db wbId k).users = db.users
      ∧ (deleteWeekApply db wbId k).groups = db.groups
      ∧ (deleteWeekApply db wbId k).contributors = db.contributors
      ∧ (deleteWeekApply db wbId k).nextId = db.nextId :=
  ⟨rfl, rfl, rfl, rfl⟩

/-! ## The dense-sequence invariant under week operations -/

/-- Length of `intRange`. -/
theorem intRange_length (n : Int) : (intRange n).length = n.toNat := by
  simp [intRange]

/-- Component view of the `create_week` write phase. -/
theorem createWeekApply_workbooks (db : DB) (wbId : Nat) (n : Int) :
    (createWeekApply db wbId n).1.workbooks
      = db.workbooks.map (fun w =>
          if w.id == wbId then { w with numberOfWeeks := w.numberOfWeeks + 1 }
          else w) := rfl

/-- Component view of the `create_week` write phase. -/
theorem createWeekApply_weeks (db : DB) (wbId : Nat) (n : Int) :
    (createWeekApply db wbId n).1.weeks
      = db.weeks ++ [({ workbookId := wbId, number := n + 1 } : Week)] := rfl

/-- The weeks of one workbook after `create_week`. -/
theorem weeksOf_createWeekApply (db : DB) (wbId : Nat) (n : Int) (x : Nat) :
    weeksOf (createWeekApply db wbId n).1 x
      = weeksOf db x ++ (if (wbId == x) = true then
          [({ workbookId := wbId, number := n + 1 } : Week)] else []) := by
  simp only [weeksOf, createWeekApply, List.filter_append]
  congr 1
  by_cases hx : (wbId == x) = true
  · simp [hx]
  · simp [hx]

/-- `create_week` preserves the dense-sequence invariant: the new week gets
number `numberOfWeeks + 1` and the counter follows. -/
theorem weekInv_createWeekApply (db : DB) (wbId : Nat) (wb : Workbook)
    (hmem : wb ∈ db.workbooks) (hid : wb.id = wbId) (hinv : WeekInv db) :
    WeekInv (createWeekApply db wbId wb.numberOfWeeks).1 := by
  intro wb' hwb'
  rw [createWeekApply_workbooks] at hwb'
  obtain ⟨wb₀, hwb₀, rfl⟩ := List.mem_map.mp hwb'
  have h0 := hinv wb₀ hwb₀
  by_cases hx : (wb₀.id == wbId) = true
  · have hxe : wb₀.id = wbId := by simpa using hx
    rw [if_pos hx]
    have hwb1 := hinv wb hmem
    have hsame : weeksOf db wb.id = weeksOf db wb₀.id := by rw [hid, hxe]
    have hcnt : wb.numberOfWeeks = wb₀.numberOfWeeks := by
      rw [hwb1.2, h0.2, hsame]
    have hproj : ({ wb₀ with numberOfWeeks := wb₀.numberOfWeeks + 1 } :
        Workbook).id = wb₀.id := rfl
    rw [hproj, weeksOf_createWeekApply]
    have hcond : (wbId == wb₀.id) = true := by simpa using hxe.symm
    rw [if_pos hcond]
    constructor
    · rw [List.map_append]
      have hnn : 0 ≤ wb₀.numberOfWeeks := by rw [h0.2]; omega
      have hr : intRange (wb₀.numberOfWeeks + 1)
          = intRange wb₀.numberOfWeeks ++ [wb₀.numberOfWeeks + 1] :=
        intRange_succ hnn
      have hn' : ({ wb₀ with numberOfWeeks := wb₀.numberOfWeeks + 1 } :
          Workbook).numberOfWeeks = wb₀.numberOfWeeks + 1 := rfl
      rw [hn', hr, hcnt]
      simp only [List.map_cons, List.map_nil]
      exact h0.1.append (List.Perm.refl _)
    · simp only [List.length_append, List.length_cons, List.length_nil]
      have := h0.2
      omega
  · rw [if_neg hx, weeksOf_createWeekApply]
    have hcond : (wbId == wb₀.id) = false := by
      simp only [beq_eq_false_iff_ne]
      intro hcon
      exact absurd (by simpa using hcon.symm) (by simpa using hx)
    rw [hcond]
    simp only [Bool.false_eq_true, if_false, List.append_nil]
    exact h0

/-- The weeks of one workbook after the `delete_week` write phase. -/
theorem weeksOf_deleteWeekApply (db : DB) (wbId : Nat) (k : Int) (x : Nat) :
    weeksOf (deleteWeekApply db wbId k) x
      = ((weeksOf db x).filter (fun w =>
            !(w.workbookId == wbId && w.number == k))).map
          (fun w => if w.workbookId == wbId ∧ k < w.number then
              { w with number := w.number - 1 } else w) := by
  have hshift : ∀ w : Week,
      ((if w.workbookId == wbId ∧ k < w.number then
          ({ w with number := w.number - 1 } : Week) else w)).workbookId
        = w.workbookId := by
    intro w
    by_cases h : w.workbookId == wbId ∧ k < w.number
    · rw [if_pos h]
    · rw [if_neg h]
  simp only [weeksOf, deleteWeekApply_weeks]
  rw [List.filter_map]
  have hcomp : ∀ w ∈ db.weeks.filter (fun w =>
      !(w.workbookId == wbId && w.number == k)),
      ((fun w : Week => w.workbookId == x) ∘ (fun w =>
        if w.workbookId == wbId ∧ k < w.number then
          { w with number := w.number - 1 } else w)) w
        = (w.workbookId == x) := by
    intro w _
    simp only [Function.comp]
    rw [hshift w]
  rw [List.filter_congr hcomp]
  congr 1
  rw [List.filter_comm]

/-- `delete_week` preserves the dense-sequence invariant: the deleted
number is removed and the gap closed, and the counter follows. -/
theorem weekInv_deleteWeekApply (db : DB) (wbId : Nat) (k : Int)
    (hkmem : ∃ wk ∈ db.weeks, wk.workbookId = wbId ∧ wk.number = k)
    (hinv : WeekInv db) :
    WeekInv (deleteWeekApply db wbId k) := by
  intro wb' hwb'
  rw [deleteWeekApply_workbooks] at hwb'
  obtain ⟨wb₀, hwb₀, rfl⟩ := List.mem_map.mp hwb'
  have h0 := hinv wb₀ hwb₀
  by_cases hx : (wb₀.id == wbId) = true
  · have hxe : wb₀.id = wbId := by simpa using hx
    rw [if_pos hx]
    have hproj : ({ wb₀ with numberOfWeeks := wb₀.numberOfWeeks - 1 } :
        Workbook).id = wb₀.id := rfl
    rw [hproj, weeksOf_deleteWeekApply]
    -- restrict the filter and the shift to this workbook's rows
    have hfil : (weeksOf db wb₀.id).filter (fun w =>
        !(w.workbookId == wbId && w.number == k))
        = (weeksOf db wb₀.id).filter (fun w => !(w.number == k)) := by
      refine List.filter_congr (fun w hw => ?_)
      have : (w.workbookId == wbId) = true := by
        have := (List.mem_filter.mp hw).2
        rw [hxe] at this
        exact this
      rw [this, Bool.true_and]
    have hk' : k ∈ (weeksOf db wb₀.id).map (fun w => w.number) := by
      obtain ⟨wk, hwk, hwkb, hwkn⟩ := hkmem
      exact List.mem_map.mpr ⟨wk, List.mem_filter.mpr
        ⟨hwk, by simp [hwkb, hxe]⟩, hwkn⟩
    have hk'' : k ∈ intRange wb₀.numberOfWeeks := h0.1.mem_iff.mp hk'
    have hkr := mem_intRange_iff.mp hk''
    have hnum : ((((weeksOf db wb₀.id).filter (fun w =>
          !(w.number == k))).map (fun w =>
            if w.workbookId == wbId ∧ k < w.number then
              ({ w with number := w.number - 1 } : Week) else w)).map
          (fun w => w.number))
        = (((weeksOf db wb₀.id).map (fun w => w.number)).filter
            (fun n => !(n == k))).map
          (fun n => if k < n then n - 1 else n) := by
      rw [List.map_map]
      have hpt : ∀ w ∈ (weeksOf db wb₀.id).filter (fun w =>
          !(w.number == k)),
          ((fun w : Week => w.number) ∘ (fun w =>
            if w.workbookId == wbId ∧ k < w.number then
              ({ w with number := w.number - 1 } : Week) else w)) w
            = ((fun n => if k < n then n - 1 else n) ∘ (fun w : Week =>
                w.number)) w := by
        intro w hw
        have hwmem := (List.mem_filter.mp hw).1
        have hwwb : (w.workbookId == wbId) = true := by
          have := (List.mem_filter.mp hwmem).2
          rw [hxe] at this
          exact this
        simp only [Function.comp]
        by_cases hlt : k < w.number
        · rw [if_pos ⟨hwwb, hlt⟩, if_pos hlt]
        · rw [if_neg (fun h => hlt h.2), if_neg hlt]
      rw [List.map_congr_left hpt, ← List.map_map, List.filter_map]
      rfl
    rw [hfil]
    constructor
    · rw [hnum]
      have hperm : (((weeksOf db wb₀.id).map (fun w => w.number)).filter
            (fun n => !(n == k))).map (fun n => if k < n then n - 1 else n)
          |>.Perm (((intRange wb₀.numberOfWeeks).filter
            (fun n => !(n == k))).map (fun n => if k < n then n - 1 else n)) :=
        (h0.1.filter _).map _
      rw [intRange_remove_shift hkr.1 hkr.2] at hperm
      exact hperm
    · have hlen : ((((weeksOf db wb₀.id).filter (fun w =>
          !(w.number == k))).map (fun w =>
            if w.workbookId == wbId ∧ k < w.number then
              ({ w with number := w.number - 1 } : Week) else w)).length : Int)
          = wb₀.numberOfWeeks - 1 := by
        have h1 : ((((weeksOf db wb₀.id).filter (fun w =>
            !(w.number == k))).map (fun w =>
              if w.workbookId == wbId ∧ k < w.number then
                ({ w with number := w.number - 1 } : Week) else w)).map
            (fun w => w.number)).length
            = (intRange (wb₀.numberOfWeeks - 1)).length := by
          rw [hnum]
          refine List.Perm.length_eq ?_
          have hperm : (((weeksOf db wb₀.id).map (fun w => w.number)).filter
                (fun n => !(n == k))).map (fun n => if k < n then n - 1 else n)
              |>.Perm (((intRange wb₀.numberOfWeeks).filter
                (fun n => !(n == k))).map
                (fun n => if k < n then n - 1 else n)) :=
            (h0.1.filter _).map _
          rw [intRange_remove_shift hkr.1 hkr.2] at hperm
          exact hperm
        rw [List.length_map, intRange_length] at h1
        rw [h1]
        omega
      rw [hlen]
  · rw [if_neg hx, weeksOf_deleteWeekApply]
    have hfil : (weeksOf db wb₀.id).filter (fun w =>
        !(w.workbookId == wbId && w.number == k)) = weeksOf db wb₀.id := by
      refine List.filter_eq_self.mpr (fun w hw => ?_)
      have hwx : (w.workbookId == wb₀.id) = true := (List.mem_filter.mp hw).2
      have : (w.workbookId == wbId) = false := by
        simp only [beq_eq_false_iff_ne]
        intro hcon
        exact absurd (by simp [← hcon, (beq_iff_eq.mp hwx)] :
          (wb₀.id == wbId) = true) (by simpa using hx)
      simp [this]
    have hmapid : (weeksOf db wb₀.id).map (fun w =>
        if w.workbookId == wbId ∧ k < w.number then
          ({ w with number := w.number - 1 } : Week) else w)
        = weeksOf db wb₀.id := by
      have hpt : ∀ w ∈ weeksOf db wb₀.id,
          (if w.workbookId == wbId ∧ k < w.number then
            ({ w with number := w.number - 1 } : Week) else w) = w := by
        intro w hw
        have hwx : (w.workbookId == wb₀.id) = true := (List.mem_filter.mp hw).2
        have hne : (w.workbookId == wbId) = false := by
          simp only [beq_eq_false_iff_ne]
          intro hcon
          exact absurd (by simp [← hcon, (beq_iff_eq.mp hwx)] :
            (wb₀.id == wbId) = true) (by simpa using hx)
        rw [if_neg (fun h => by rw [hne] at h; exact absurd h.1 (by simp))]
      rw [List.map_congr_left hpt, List.map_id']
    rw [hfil, hmapid]
    exact h0

/-- A single successful or failed week operation preserves the invariant. -/
theorem weekInv_applyWeekOp (db : DB) (op : WeekOp) (hinv : WeekInv db) :
    WeekInv (applyWeekOp db op) := by
  cases op with
  | create a w =>
    simp only [applyWeekOp]
    cases h : createWeek db a w false with
    | error e => exact hinv
    | ok res =>
      obtain ⟨db', r⟩ := res
      unfold createWeek at h
      by_cases hany : (!(db.workbooks.any (fun w' => w'.id == w))) = true
      · rw [if_pos hany] at h
        simp at h
      · rw [if_neg hany] at h
        cases hfind : db.workbooks.find? (fun w' => w'.id == w) with
        | none =>
          simp only [hfind] at h
          exact Except.noConfusion h
        | some wb =>
          simp only [hfind] at h
          cases hperm : checkContentPermission db a wb with
          | error e =>
            simp only [hperm] at h
            exact Except.noConfusion h
          | ok u =>
            simp only [hperm] at h
            rw [if_neg Bool.false_ne_true] at h
            injection h with h2
            have hdb : db' = (createWeekApply db w wb.numberOfWeeks).1 := by
              rw [h2]
            rw [hdb]
            exact weekInv_createWeekApply db w wb
              (List.mem_of_find?_eq_some hfind)
              (by simpa using List.find?_some hfind) hinv
  | delete a w k =>
    simp only [applyWeekOp]
    cases h : deleteWeek db a w k false with
    | error e => exact hinv
    | ok db' =>
      unfold deleteWeek at h
      cases hfind : db.weeks.find? (fun wk =>
          wk.workbookId == w && wk.number == k) with
      | none =>
        simp only [hfind] at h
        exact Except.noConfusion h
      | some wk =>
        simp only [hfind] at h
        cases hfindb : db.workbooks.find? (fun wb => wb.id == wk.workbookId) with
        | none =>
          simp only [hfindb] at h
          exact Except.noConfusion h
        | some wb =>
          simp only [hfindb] at h
          cases hperm : checkContentPermission db a wb with
          | error e =>
            simp only [hperm] at h
            exact Except.noConfusion h
          | ok u =>
            simp only [hperm] at h
            rw [if_neg Bool.false_ne_true] at h
            injection h with h2
            have hwk := List.find?_some hfind
            have hwk1 : wk.workbookId = w := by
              have := (Bool.and_eq_true _ _).mp hwk
              simpa using this.1
            have hwk2 : wk.number = k := by
              have := (Bool.and_eq_true _ _).mp hwk
              simpa using this.2
            rw [← h2]
            exact weekInv_deleteWeekApply db w k
              ⟨wk, List.mem_of_find?_eq_some hfind, hwk1, hwk2⟩ hinv

/-- Any sequence of week operations preserves the invariant. -/
theorem weekInv_applyWeekOps (db : DB) (ops : List WeekOp)
    (hinv : WeekInv db) : WeekInv (applyWeekOps db ops) := by
  induction ops generalizing db with
  | nil => exact hinv
  | cons op t ih =>
    exact ih (applyWeekOp db op) (weekInv_applyWeekOp db op hinv)

/-! ## Claim theorems -/

/-- C1: for every workbook, after any sequence of successfully committed
week-create and week-delete operations, the set of week numbers in that
workbook is exactly {1, ..., numberOfWeeks} with each number appearing
exactly once, and the stored `numberOfWeeks` counter equals the live count
of the workbook's weeks. -/
theorem C1_dense_week_invariant (db : DB) (ops : List WeekOp)
    (hinv : WeekInv db) : WeekInv (applyWeekOps db ops) :=
  weekInv_applyWeekOps db ops hinv

/-- Witness for C1 at a concrete state: deleting week 2 of workbook 20,
appending a week as the contributor, then deleting week 1 keeps the
invariant. -/
theorem C1_dense_week_invariant_witness :
    WeekInv dbWeeks
      ∧ WeekInv (applyWeekOps dbWeeks
          [WeekOp.delete 1 20 2, WeekOp.create 3 20, WeekOp.delete 2 20 1]) :=
  ⟨by decide, C1_dense_week_invariant dbWeeks
    [WeekOp.delete 1 20 2, WeekOp.create 3 20, WeekOp.delete 2 20 1]
    (by decide)⟩

/-- C2 (code bug): the docstring of `patch_activity` promises that
renumbering D to 2 in {A:1, B:2, C:3, D:4} yields {A:1, D:2, B:3, C:4},
but the duplicated shift block runs against the moved activity's still-old
number, shifting B a second time: the committed state is
{A:1, B:4, C:4, D:2} — not a permutation of 1..4. -/
theorem C2_renumber_code_eval :
    activityNumbersOf (patchActivity dbFour 1 104
        ({ number := some 2 } : ActivityUpdate) false)
      = [(101, 1), (102, 4), (103, 4), (104, 2)] := by decide

/-- C3 (code bug): `delete_activity`'s loop decrements a local copy of each
sibling's number and never writes it back, so deleting the activity
numbered 1 leaves the survivors at {2, 3, 4} instead of closing the gap to
{1, 2, 3}. -/
theorem C3_delete_activity_code_eval :
    activityNumbersAfterDelete (deleteActivity dbFour 1 101 false)
      = [(102, 2), (103, 3), (104, 4)] := by decide

/-- C7 (code bug): `delete_workbook` selects the activities to delete by
`week_number` alone, so deleting workbook 20 also deletes workbook 21's
activity 105 — its week number 2 collides with a week of workbook 20 —
while 21's own weeks survive. -/
theorem C7_delete_workbook_code_eval :
    deleteWorkbook dbWeeks 1 20 false = .ok (deleteWorkbookApply dbWeeks 20)
      ∧ mkActivity 105 21 2 1 ∈ dbWeeks.activities
      ∧ (⟨21, 2⟩ : Week) ∈ (deleteWorkbookApply dbWeeks 20).weeks
      ∧ (deleteWorkbookApply dbWeeks 20).activities = [] := by decide

/-- C8 counterexample: the dry-run flag does not reproduce the real call's
signal: renumbering activity 104 to the out-of-range number 9 succeeds as
a peek (the range check runs after the peek return) but fails with a
validation error for real. -/
theorem C8_peek_signal_counterexample :
    patchActivity dbFour 1 104 ({ number := some 9 } : ActivityUpdate) true
        = .ok (dbFour, none)
      ∧ patchActivity dbFour 1 104 ({ number := some 9 } : ActivityUpdate)
          false = .error .validationError := by decide

/-- C9 counterexample: the sibling-shift loop is not idempotent against
itself: with activities {101:1, 102:2, 103:3, 104:4} and a move of the
activity numbered 4 to 2, one pass yields {1, 3, 4, 4} (the mover is
renumbered later by `setattr`) but the second pass shifts 102 again. -/
theorem C9_double_shift_counterexample :
    activityShiftPass 1 4 2 (activityShiftPass 1 4 2 dbFour.activities)
      ≠ activityShiftPass 1 4 2 dbFour.activities := by decide

/-- C9 (amended): the duplicated sibling-shift execution coincides with a
single execution exactly when no sibling remains inside the shift window
after the first pass; in particular whenever the move distance is at most
one position.  (For larger moves the two differ, as the counterexample
shows.) -/
theorem C9_adjacent_double_shift_eq_single (n oldNumber value : Int)
    (h : (value - oldNumber).natAbs ≤ 1) (l : List Activity) :
    activityShiftPass n oldNumber value
        (activityShiftPass n oldNumber value l)
      = activityShiftPass n oldNumber value l := by
  simp only [activityShiftPass, List.map_map]
  refine List.map_congr_left (fun a _ => ?_)
  simp only [Function.comp]
  split_ifs <;> try rfl
  all_goals exfalso
  all_goals simp_all [Bool.and_eq_true, decide_eq_true_eq]
  all_goals omega

/-- Witness for the amended C9 at a concrete adjacent move. -/
theorem C9_adjacent_double_shift_eq_single_witness :
    ((3 - 2 : Int).natAbs ≤ 1)
      ∧ activityShiftPass 1 2 3 (activityShiftPass 1 2 3 dbFour.activities)
          = activityShiftPass 1 2 3 dbFour.activities :=
  ⟨by decide,
    C9_adjacent_double_shift_eq_single 1 2 3 (by decide) dbFour.activities⟩

/-- C10: an activity update whose payload does not set `number` leaves the
stored number of every activity unchanged — the sibling-shift blocks are
skipped entirely — and modifies only the fields present in the payload on
the target activity. -/
theorem C10_patch_without_number_frame (db : DB) (actorId actId : Nat)
    (upd : ActivityUpdate) (db' : DB) (r : Option Activity)
    (hnum : upd.number = none)
    (h : patchActivity db actorId actId upd false = .ok (db', r)) :
    db'.activities.map (fun a => a.number)
        = db.activities.map (fun a => a.number)
      ∧ db'.activities = db.activities.map (fun a =>
          if a.id == actId then applyActivityFields upd a else a) := by
  unfold patchActivity at h
  cases hfa : db.activities.find? (fun a => a.id == actId) with
  | none =>
    simp only [hfa] at h
    exact Except.noConfusion h
  | some dbActivity =>
    simp only [hfa] at h
    cases hfb : db.workbooks.find? (fun w => w.id == dbActivity.workbookId) with
    | none =>
      simp only [hfb] at h
      exact Except.noConfusion h
    | some wb =>
      simp only [hfb] at h
      cases hperm : checkContentPermission db actorId wb with
      | error e =>
        simp only [hperm] at h
        exact Except.noConfusion h
      | ok u =>
        simp only [hperm] at h
        rw [if_neg Bool.false_ne_true] at h
        unfold patchActivityApply at h
        by_cases hval : (!(patchActivityValidate db dbActivity upd)) = true
        · rw [if_pos hval] at h
          exact Except.noConfusion h
        · rw [if_neg hval] at h
          simp only [hnum] at h
          injection h with h2
          have hideq : dbActivity.id = actId := by
            simpa using List.find?_some hfa
          have hdb : db' = { db with activities := db.activities.map (fun a =>
              if a.id == dbActivity.id then applyActivityFields upd a
              else a) } := by
            have := congrArg Prod.fst h2
            simpa using this.symm
          rw [hdb, hideq]
          refine ⟨?_, rfl⟩
          simp only [List.map_map]
          refine List.map_congr_left (fun a _ => ?_)
          simp only [Function.comp]
          by_cases hid : (a.id == actId) = true
          · rw [if_pos hid]
            simp [applyActivityFields, hnum]
          · rw [if_neg (by simpa using hid)]

/-- Witness for C10: renaming activity 101 changes no stored number and
touches only the name field of activity 101. -/
theorem C10_patch_without_number_frame_witness :
    updName.number = none
      ∧ dbFourRenamed.activities.map (fun a => a.number)
          = dbFour.activities.map (fun a => a.number)
      ∧ dbFourRenamed.activities = dbFour.activities.map (fun a =>
          if a.id == 101 then applyActivityFields updName a else a) :=
  ⟨rfl,
    (C10_patch_without_number_frame dbFour 1 101 updName dbFourRenamed
      (some (applyActivityFields updName (mkActivity 101 20 1 1)))
      rfl (by decide)).1,
    (C10_patch_without_number_frame dbFour 1 101 updName dbFourRenamed
      (some (applyActivityFields updName (mkActivity 101 20 1 1)))
      rfl (by decide)).2⟩

/-- C6 counterexample: user 3 is a contributor of workbook 20 (and not its
lead, who is user 2), yet editing the workbook is rejected with
PermissionDenied while creating a week succeeds — `patch_workbook` consults
only the owner and admins, contradicting the claim that all listed
operations gate identically on lead/contributor/admin. -/
theorem C6_contributor_gate_counterexample :
    (⟨3, 20⟩ : WorkbookContributor) ∈ dbFour.contributors
      ∧ dbFour.workbooks.map (fun w => w.courseLeadId) = [2]
      ∧ createWeek dbFour 3 20 false
          = .ok ((createWeekApply dbFour 20 1).1, some ⟨20, 2⟩)
      ∧ patchWorkbook dbFour 3 20 updCourseName false
          = .error .permissionDenied := by decide

/-- The permission block shared by the week and activity mutations,
characterised: given the owner row, the actor's user row and the actor's
permissions-group row, it rejects with PermissionDenied exactly when the
actor is neither the lead, nor a contributor of the workbook, nor an
admin; and it either rejects so or succeeds. -/
theorem checkContentPermission_denied_iff (db : DB) (actorId : Nat)
    (wb : Workbook) (owner u : User) (pg : PermissionsGroup)
    (howner : db.users.find? (fun x => x.id == wb.courseLeadId) = some owner)
    (hu : db.users.find? (fun x => x.id == actorId) = some u)
    (hpg : db.groups.find? (fun gr => gr.id == u.permissionsGroupId)
      = some pg) :
    (checkContentPermission db actorId wb = .error .permissionDenied
        ↔ ¬(actorId = wb.courseLeadId
            ∨ (∃ c ∈ db.contributors,
                c.workbookId = wb.id ∧ c.contributorId = actorId)
            ∨ pg.name = "Admin"))
      ∧ (checkContentPermission db actorId wb = .error .permissionDenied
          ∨ checkContentPermission db actorId wb = .ok ()) := by
  have howner' := List.find?_some howner
  have howner_id : owner.id = wb.courseLeadId := beq_iff_eq.mp howner'
  unfold checkContentPermission
  simp only [howner, hu, hpg]
  by_cases hcond : (!(((db.contributors.filter (fun c =>
        c.workbookId == wb.id)).map (fun c => c.contributorId)).contains
          actorId)
      && !(actorId == owner.id) && !(pg.name == "Admin")) = true
  · rw [if_pos hcond]
    refine ⟨iff_of_true rfl ?_, Or.inl rfl⟩
    have h1 := (Bool.and_eq_true _ _).mp hcond
    have h2 := (Bool.and_eq_true _ _).mp h1.1
    have hnc : (((db.contributors.filter (fun c =>
        c.workbookId == wb.id)).map (fun c => c.contributorId)).contains
          actorId) = false := by simpa using h2.1
    have hno : (actorId == owner.id) = false := by simpa using h2.2
    have hna : (pg.name == "Admin") = false := by simpa using h1.2
    rintro (hlead | ⟨c, hcmem, hcwb, hcid⟩ | hadmin)
    · rw [howner_id] at hno
      simp [hlead] at hno
    · have : actorId ∈ (db.contributors.filter (fun c =>
          c.workbookId == wb.id)).map (fun c => c.contributorId) :=
        List.mem_map.mpr ⟨c, List.mem_filter.mpr
          ⟨hcmem, by simp [hcwb]⟩, hcid⟩
      rw [Bool.eq_false_iff] at hnc
      exact hnc (List.elem_iff.mpr this)
    · simp [hadmin] at hna
  · rw [if_neg hcond]
    refine ⟨iff_of_false (by simp) ?_, Or.inr rfl⟩
    intro hneg
    apply hneg
    rcases Bool.and_eq_false_iff.mp (Bool.eq_false_iff.mpr hcond)
      with h | h
    · rcases Bool.and_eq_false_iff.mp h with h' | h'
      · have hcontains : (((db.contributors.filter (fun c =>
            c.workbookId == wb.id)).map
              (fun c => c.contributorId)).contains actorId) = true := by
          simpa using h'
        have hmem : actorId ∈ (db.contributors.filter (fun c =>
            c.workbookId == wb.id)).map (fun c => c.contributorId) :=
          List.elem_iff.mp hcontains
        obtain ⟨c, hcmem, hcid⟩ := List.mem_map.mp hmem
        have hcfil := List.mem_filter.mp hcmem
        exact Or.inr (Or.inl ⟨c, hcfil.1, beq_iff_eq.mp hcfil.2, hcid⟩)
      · refine Or.inl ?_
        have : (actorId == owner.id) = true := by simpa using h'
        rw [← howner_id]
        exact beq_iff_eq.mp this
    · refine Or.inr (Or.inr ?_)
      have : (pg.name == "Admin") = true := by simpa using h
      exact beq_iff_eq.mp this

/-- The write phase of `create_activity` never rejects for permissions. -/
theorem createActivityApply_ne_denied (db : DB) (c : ActivityCreate) :
    createActivityApply db c ≠ .error .permissionDenied := by
  intro h
  unfold createActivityApply at h
  repeat' split at h
  all_goals simp at h

/-- The write phase of `patch_activity` never rejects for permissions. -/
theorem patchActivityApply_ne_denied (db : DB) (a : Activity)
    (upd : ActivityUpdate) :
    patchActivityApply db a upd ≠ .error .permissionDenied := by
  intro h
  unfold patchActivityApply at h
  repeat'
    first
      | simp only [Except.error.injEq, reduceCtorEq] at h
      | split at h

/-- The write phase of `delete_activity` never rejects for permissions. -/
theorem deleteActivityApply_ne_denied (db : DB) (a : Activity) :
    deleteActivityApply db a ≠ .error .permissionDenied := by
  intro h
  unfold deleteActivityApply at h
  repeat' split at h
  all_goals simp at h

/-- C6 (amended): given the workbook, its owner row, the actor's user row,
the actor's permissions-group row, an existing week of the workbook, an
existing activity of the workbook and a valid activity-create payload for
it, the gates of week-create, week-delete, activity-create, activity-edit
and activity-delete each reject with PermissionDenied exactly when the
actor is neither the lead, nor a contributor of the workbook, nor an
admin; the workbook-edit gate rejects exactly when the actor is neither
the lead nor an admin — contributors are not consulted there. -/
theorem C6_authorization_gates (db : DB) (actorId wbId actId : Nat)
    (wb : Workbook) (owner u : User) (pg : PermissionsGroup)
    (wk : Week) (act : Activity) (c : ActivityCreate)
    (upd : ActivityUpdate) (wupd : WorkbookUpdate) (k : Int) (peek : Bool)
    (hwb : db.workbooks.find? (fun w => w.id == wbId) = some wb)
    (howner : db.users.find? (fun x => x.id == wb.courseLeadId) = some owner)
    (hu : db.users.find? (fun x => x.id == actorId) = some u)
    (hpg : db.groups.find? (fun gr => gr.id == u.permissionsGroupId)
      = some pg)
    (hwk : db.weeks.find? (fun w =>
      w.workbookId == wbId && w.number == k) = some wk)
    (hact : db.activities.find? (fun a => a.id == actId) = some act)
    (hactwb : act.workbookId = wbId)
    (hcv : activityCreateValidate db c = true)
    (hcwb : c.workbookId = wbId) :
    (createWeek db actorId wbId peek = .error .permissionDenied
        ↔ ¬(actorId = wb.courseLeadId
            ∨ (∃ cc ∈ db.contributors,
                cc.workbookId = wbId ∧ cc.contributorId = actorId)
            ∨ pg.name = "Admin"))
      ∧ (deleteWeek db actorId wbId k peek = .error .permissionDenied
        ↔ ¬(actorId = wb.courseLeadId
            ∨ (∃ cc ∈ db.contributors,
                cc.workbookId = wbId ∧ cc.contributorId = actorId)
            ∨ pg.name = "Admin"))
      ∧ (createActivity db actorId c peek = .error .permissionDenied
        ↔ ¬(actorId = wb.courseLeadId
            ∨ (∃ cc ∈ db.contributors,
                cc.workbookId = wbId ∧ cc.contributorId = actorId)
            ∨ pg.name = "Admin"))
      ∧ (patchActivity db actorId actId upd peek = .error .permissionDenied
        ↔ ¬(actorId = wb.courseLeadId
            ∨ (∃ cc ∈ db.contributors,
                cc.workbookId = wbId ∧ cc.contributorId = actorId)
            ∨ pg.name = "Admin"))
      ∧ (deleteActivity db actorId actId peek = .error .permissionDenied
        ↔ ¬(actorId = wb.courseLeadId
            ∨ (∃ cc ∈ db.contributors,
                cc.workbookId = wbId ∧ cc.contributorId = actorId)
            ∨ pg.name = "Admin"))
      ∧ (patchWorkbook db actorId wbId wupd peek = .error .permissionDenied
        ↔ ¬(actorId = wb.courseLeadId ∨ pg.name = "Admin")) := by
  have hwb' := List.find?_some hwb
  have hwbid : wb.id = wbId := beq_iff_eq.mp hwb'
  have hany : (db.workbooks.any (fun w => w.id == wbId)) = true :=
    List.any_eq_true.mpr ⟨wb, List.mem_of_find?_eq_some hwb, hwb'⟩
  have howner' := List.find?_some howner
  have howner_id : owner.id = wb.courseLeadId := beq_iff_eq.mp howner'
  have H := checkContentPermission_denied_iff db actorId wb owner u pg
    howner hu hpg
  rw [hwbid] at H
  refine ⟨?_, ?_, ?_, ?_, ?_, ?_⟩
  · unfold createWeek
    rw [if_neg (by simp [hany])]
    simp only [hwb]
    rcases H.2 with hd | hok
    · rw [hd]
      exact iff_of_true rfl (H.1.mp hd)
    · rw [hok]
      refine iff_of_false ?_ ?_
      · intro hc
        cases peek with
        | true => simp at hc
        | false => simp at hc
      · intro hneg
        have hcd := H.1.mpr hneg
        rw [hok] at hcd
        exact Except.noConfusion hcd
  · have hwk' := List.find?_some hwk
    have hwkid : wk.workbookId = wbId :=
      beq_iff_eq.mp ((Bool.and_eq_true _ _).mp hwk').1
    unfold deleteWeek
    simp only [hwk]
    rw [hwkid]
    simp only [hwb]
    rcases H.2 with hd | hok
    · rw [hd]
      exact iff_of_true rfl (H.1.mp hd)
    · rw [hok]
      refine iff_of_false ?_ ?_
      · intro hc
        cases peek with
        | true => simp at hc
        | false => simp at hc
      · intro hneg
        have hcd := H.1.mpr hneg
        rw [hok] at hcd
        exact Except.noConfusion hcd
  · unfold createActivity
    rw [if_neg (by simp [hcv])]
    rw [hcwb]
    simp only [hwb]
    rcases H.2 with hd | hok
    · rw [hd]
      exact iff_of_true rfl (H.1.mp hd)
    · rw [hok]
      refine iff_of_false ?_ ?_
      · intro hc
        cases peek with
        | true => simp at hc
        | false =>
          have hc' : createActivityApply db c = .error .permissionDenied := by
            simpa using hc
          exact createActivityApply_ne_denied db c hc'
      · intro hneg
        have hcd := H.1.mpr hneg
        rw [hok] at hcd
        exact Except.noConfusion hcd
  · unfold patchActivity
    simp only [hact]
    rw [hactwb]
    simp only [hwb]
    rcases H.2 with hd | hok
    · rw [hd]
      exact iff_of_true rfl (H.1.mp hd)
    · rw [hok]
      refine iff_of_false ?_ ?_
      · intro hc
        cases peek with
        | true => simp at hc
        | false =>
          have hc' : patchActivityApply db act upd
              = .error .permissionDenied := by
            simpa using hc
          exact patchActivityApply_ne_denied db act upd hc'
      · intro hneg
        have hcd := H.1.mpr hneg
        rw [hok] at hcd
        exact Except.noConfusion hcd
  · unfold deleteActivity
    simp only [hact]
    rw [hactwb]
    simp only [hwb]
    rcases H.2 with hd | hok
    · rw [hd]
      exact iff_of_true rfl (H.1.mp hd)
    · rw [hok]
      refine iff_of_false ?_ ?_
      · intro hc
        cases peek with
        | true => simp at hc
        | false =>
          have hc' : deleteActivityApply db act = .error .permissionDenied := by
            simpa using hc
          exact deleteActivityApply_ne_denied db act hc'
      · intro hneg
        have hcd := H.1.mpr hneg
        rw [hok] at hcd
        exact Except.noConfusion hcd
  · unfold patchWorkbook
    simp only [hwb]
    unfold checkMetaPermission
    simp only [howner, hu, hpg]
    by_cases hcond : (!(owner.id == actorId) && !(pg.name == "Admin")) = true
    · rw [if_pos hcond]
      refine iff_of_true rfl ?_
      have h1 := (Bool.and_eq_true _ _).mp hcond
      have hno : (owner.id == actorId) = false := by simpa using h1.1
      have hna : (pg.name == "Admin") = false := by simpa using h1.2
      rintro (hlead | hadmin)
      · rw [howner_id] at hno
        simp [hlead] at hno
      · simp [hadmin] at hna
    · rw [if_neg hcond]
      refine iff_of_false ?_ ?_
      · intro hc
        cases peek with
        | true => simp at hc
        | false =>
          rw [if_neg Bool.false_ne_true] at hc
          unfold patchWorkbookApply at hc
          by_cases hval : (!(patchWorkbookValidate db wb wupd)) = true
          · rw [if_pos hval] at hc
            injection hc with hc2
            exact ApiError.noConfusion hc2
          · rw [if_neg hval] at hc
            exact Except.noConfusion hc
      · intro hneg
        apply hneg
        rcases Bool.and_eq_false_iff.mp (Bool.eq_false_iff.mpr hcond)
          with h | h
        · refine Or.inl ?_
          have : (owner.id == actorId) = true := by simpa using h
          rw [← howner_id]
          exact (beq_iff_eq.mp this).symm
        · refine Or.inr ?_
          have : (pg.name == "Admin") = true := by simpa using h
          exact beq_iff_eq.mp this

/-- Witness for the amended C6: on `dbFour` the outsider (user 4, group
"User") is characterised by all six gates — week create/delete, activity
create/edit/delete against week 1 and activity 101, and workbook edit. -/
theorem C6_authorization_gates_witness :
    (createWeek dbFour 4 20 false = .error .permissionDenied
        ↔ ¬((4 : Nat) = 2
            ∨ (∃ cc ∈ dbFour.contributors,
                cc.workbookId = 20 ∧ cc.contributorId = 4)
            ∨ ("User" : String) = "Admin"))
      ∧ (deleteWeek dbFour 4 20 1 false = .error .permissionDenied
        ↔ ¬((4 : Nat) = 2
            ∨ (∃ cc ∈ dbFour.contributors,
                cc.workbookId = 20 ∧ cc.contributorId = 4)
            ∨ ("User" : String) = "Admin"))
      ∧ (createActivity dbFour 4 ⟨20, 1, "n", 30, 40, 41, 42, 43⟩ false
            = .error .permissionDenied
        ↔ ¬((4 : Nat) = 2
            ∨ (∃ cc ∈ dbFour.contributors,
                cc.workbookId = 20 ∧ cc.contributorId = 4)
            ∨ ("User" : String) = "Admin"))
      ∧ (patchActivity dbFour 4 101 updName false = .error .permissionDenied
        ↔ ¬((4 : Nat) = 2
            ∨ (∃ cc ∈ dbFour.contributors,
                cc.workbookId = 20 ∧ cc.contributorId = 4)
            ∨ ("User" : String) = "Admin"))
      ∧ (deleteActivity dbFour 4 101 false = .error .permissionDenied
        ↔ ¬((4 : Nat) = 2
            ∨ (∃ cc ∈ dbFour.contributors,
                cc.workbookId = 20 ∧ cc.contributorId = 4)
            ∨ ("User" : String) = "Admin"))
      ∧ (patchWorkbook dbFour 4 20 updCourseName false
            = .error .permissionDenied
        ↔ ¬((4 : Nat) = 2 ∨ ("User" : String) = "Admin")) :=
  C6_authorization_gates dbFour 4 20 101 ⟨20, 0, 100, "CS", 2, 30, 1⟩
    ⟨2, "lead", 11⟩ ⟨4, "outsider", 11⟩ ⟨11, "User"⟩ ⟨20, 1⟩
    (mkActivity 101 20 1 1) ⟨20, 1, "n", 30, 40, 41, 42, 43⟩
    updName updCourseName 1 false
    rfl rfl rfl rfl rfl rfl rfl (by decide) rfl

/-- Peek behaviour of `create_week`: a successful dry run leaves the state
unchanged, and a dry-run failure is the same failure the real call
produces. -/
theorem createWeek_peek_spec (db : DB) (a w : Nat) :
    (∀ db' r, createWeek db a w true = .ok (db', r) → db' = db)
      ∧ (∀ e, createWeek db a w true = .error e
          → createWeek db a w false = .error e) := by
  constructor
  · intro db' r h
    unfold createWeek at h
    split at h
    · exact Except.noConfusion h
    · split at h
      · exact Except.noConfusion h
      · split at h
        · exact Except.noConfusion h
        · rw [if_pos rfl] at h
          injection h with h2
          exact (Prod.mk.injEq _ _ _ _ ▸ h2 : _ ∧ _).1.symm
  · intro e h
    unfold createWeek at h ⊢
    split at h
    next hcond =>
      rw [if_pos hcond]
      exact h
    next hcond =>
      rw [if_neg hcond]
      split at h
      next hfind =>
        exact h
      next wb hfind =>
        split at h
        next e' hperm =>
          exact h
        next hperm =>
          rw [if_pos rfl] at h
          exact Except.noConfusion h

/-- Peek behaviour of `delete_week`. -/
theorem deleteWeek_peek_spec (db : DB) (a w : Nat) (k : Int) :
    (∀ db', deleteWeek db a w k true = .ok db' → db' = db)
      ∧ (∀ e, deleteWeek db a w k true = .error e
          → deleteWeek db a w k false = .error e) := by
  constructor
  · intro db' h
    unfold deleteWeek at h
    split at h
    · exact Except.noConfusion h
    · split at h
      · exact Except.noConfusion h
      · split at h
        · exact Except.noConfusion h
        · rw [if_pos rfl] at h
          injection h with h2
          exact h2.symm
  · intro e h
    unfold deleteWeek at h ⊢
    split at h
    next hfind => exact h
    next wk hfind =>
      split at h
      next hfindb => exact h
      next wb hfindb =>
        split at h
        next e' hperm => exact h
        next hperm =>
          rw [if_pos rfl] at h
          exact Except.noConfusion h

/-- Peek behaviour of `create_activity`. -/
theorem createActivity_peek_spec (db : DB) (a : Nat) (c : ActivityCreate) :
    (∀ db' r, createActivity db a c true = .ok (db', r) → db' = db)
      ∧ (∀ e, createActivity db a c true = .error e
          → createActivity db a c false = .error e) := by
  constructor
  · intro db' r h
    unfold createActivity at h
    split at h
    · exact Except.noConfusion h
    · split at h
      · exact Except.noConfusion h
      · split at h
        · exact Except.noConfusion h
        · rw [if_pos rfl] at h
          injection h with h2
          exact (Prod.mk.injEq _ _ _ _ ▸ h2 : _ ∧ _).1.symm
  · intro e h
    unfold createActivity at h ⊢
    split at h
    next hcond =>
      rw [if_pos hcond]
      exact h
    next hcond =>
      rw [if_neg hcond]
      split at h
      next hfind => exact h
      next wb hfind =>
        split at h
        next e' hperm => exact h
        next hperm =>
          rw [if_pos rfl] at h
          exact Except.noConfusion h

/-- Peek behaviour of `delete_activity`. -/
theorem deleteActivity_peek_spec (db : DB) (a actId : Nat) :
    (∀ db', deleteActivity db a actId true = .ok db' → db' = db)
      ∧ (∀ e, deleteActivity db a actId true = .error e
          → deleteActivity db a actId false = .error e) := by
  constructor
  · intro db' h
    unfold deleteActivity at h
    split at h
    · exact Except.noConfusion h
    · split at h
      · exact Except.noConfusion h
      · split at h
        · exact Except.noConfusion h
        · rw [if_pos rfl] at h
          injection h with h2
          exact h2.symm
  · intro e h
    unfold deleteActivity at h ⊢
    split at h
    next hfind => exact h
    next act hfind =>
      split at h
      next hfindb => exact h
      next wb hfindb =>
        split at h
        next e' hperm => exact h
        next hperm =>
          rw [if_pos rfl] at h
          exact Except.noConfusion h

/-- Peek behaviour of `patch_activity`. -/
theorem patchActivity_peek_spec (db : DB) (a actId : Nat)
    (upd : ActivityUpdate) :
    (∀ db' r, patchActivity db a actId upd true = .ok (db', r) → db' = db)
      ∧ (∀ e, patchActivity db a actId upd true = .error e
          → patchActivity db a actId upd false = .error e) := by
  constructor
  · intro db' r h
    unfold patchActivity at h
    split at h
    · exact Except.noConfusion h
    · split at h
      · exact Except.noConfusion h
      · split at h
        · exact Except.noConfusion h
        · rw [if_pos rfl] at h
          injection h with h2
          exact (Prod.mk.injEq _ _ _ _ ▸ h2 : _ ∧ _).1.symm
  · intro e h
    unfold patchActivity at h ⊢
    split at h
    next hfind => exact h
    next act hfind =>
      split at h
      next hfindb => exact h
      next wb hfindb =>
        split at h
        next e' hperm => exact h
        next hperm =>
          rw [if_pos rfl] at h
          exact Except.noConfusion h

/-- Peek behaviour of `patch_workbook`. -/
theorem patchWorkbook_peek_spec (db : DB) (a wbId : Nat)
    (upd : WorkbookUpdate) :
    (∀ db' r, patchWorkbook db a wbId upd true = .ok (db', r) → db' = db)
      ∧ (∀ e, patchWorkbook db a wbId upd true = .error e
          → patchWorkbook db a wbId upd false = .error e) := by
  constructor
  · intro db' r h
    unfold patchWorkbook at h
    split at h
    · exact Except.noConfusion h
    · split at h
      · exact Except.noConfusion h
      · rw [if_pos rfl] at h
        injection h with h2
        exact (Prod.mk.injEq _ _ _ _ ▸ h2 : _ ∧ _).1.symm
  · intro e h
    unfold patchWorkbook at h ⊢
    split at h
    next hfind => exact h
    next wb hfind =>
      split at h
      next e' hperm => exact h
      next hperm =>
        rw [if_pos rfl] at h
        exact Except.noConfusion h

/-- Peek behaviour of `delete_workbook`. -/
theorem deleteWorkbook_peek_spec (db : DB) (a wbId : Nat) :
    (∀ db', deleteWorkbook db a wbId true = .ok db' → db' = db)
      ∧ (∀ e, deleteWorkbook db a wbId true = .error e
          → deleteWorkbook db a wbId false = .error e) := by
  constructor
  · intro db' h
    unfold deleteWorkbook at h
    split at h
    · exact Except.noConfusion h
    · split at h
      · exact Except.noConfusion h
      · rw [if_pos rfl] at h
        injection h with h2
        exact h2.symm
  · intro e h
    unfold deleteWorkbook at h ⊢
    split at h
    next hfind => exact h
    next wb hfind =>
      split at h
      next e' hperm => exact h
      next hperm =>
        rw [if_pos rfl] at h
        exact Except.noConfusion h

/-- Peek behaviour of `duplicate_workbook`. -/
theorem duplicateWorkbook_peek_spec (db : DB) (a wbId : Nat) :
    (∀ db' r, duplicateWorkbook db a wbId true = .ok (db', r) → db' = db)
      ∧ (∀ e, duplicateWorkbook db a wbId true = .error e
          → duplicateWorkbook db a wbId false = .error e) := by
  constructor
  · intro db' r h
    unfold duplicateWorkbook at h
    split at h
    · exact Except.noConfusion h
    · split at h
      · exact Except.noConfusion h
      · rw [if_pos rfl] at h
        injection h with h2
        exact (Prod.mk.injEq _ _ _ _ ▸ h2 : _ ∧ _).1.symm
  · intro e h
    unfold duplicateWorkbook at h ⊢
    split at h
    next hfind => exact h
    next usr hfind =>
      split at h
      next hfindb => exact h
      next wb hfindb =>
        rw [if_pos rfl] at h
        exact Except.noConfusion h

/-- C8 (amended): for each modelled mutating endpoint, a dry-run (peek)
call commits no write — a successful peek returns the unchanged state —
and any failure a peek reports is exactly the failure the real call would
report; the converse fails, because the validations performed after the
peek return (the renumber range check, the merged-model validation, the
week unwrap) are skipped by the dry run, as the counterexample shows. -/
theorem C8_peek_no_write_and_error_agreement :
    (∀ (db : DB) (a w : Nat),
        (∀ db' r, createWeek db a w true = .ok (db', r) → db' = db)
          ∧ (∀ e, createWeek db a w true = .error e
              → createWeek db a w false = .error e))
      ∧ (∀ (db : DB) (a w : Nat) (k : Int),
          (∀ db', deleteWeek db a w k true = .ok db' → db' = db)
            ∧ (∀ e, deleteWeek db a w k true = .error e
                → deleteWeek db a w k false = .error e))
      ∧ (∀ (db : DB) (a : Nat) (c : ActivityCreate),
          (∀ db' r, createActivity db a c true = .ok (db', r) → db' = db)
            ∧ (∀ e, createActivity db a c true = .error e
                → createActivity db a c false = .error e))
      ∧ (∀ (db : DB) (a actId : Nat),
          (∀ db', deleteActivity db a actId true = .ok db' → db' = db)
            ∧ (∀ e, deleteActivity db a actId true = .error e
                → deleteActivity db a actId false = .error e))
      ∧ (∀ (db : DB) (a actId : Nat) (upd : ActivityUpdate),
          (∀ db' r, patchActivity db a actId upd true = .ok (db', r)
              → db' = db)
            ∧ (∀ e, patchActivity db a actId upd true = .error e
                → patchActivity db a actId upd false = .error e))
      ∧ (∀ (db : DB) (a wbId : Nat) (upd : WorkbookUpdate),
          (∀ db' r, patchWorkbook db a wbId upd true = .ok (db', r)
              → db' = db)
            ∧ (∀ e, patchWorkbook db a wbId upd true = .error e
                → patchWorkbook db a wbId upd false = .error e))
      ∧ (∀ (db : DB) (a wbId : Nat),
          (∀ db', deleteWorkbook db a wbId true = .ok db' → db' = db)
            ∧ (∀ e, deleteWorkbook db a wbId true = .error e
                → deleteWorkbook db a wbId false = .error e))
      ∧ (∀ (db : DB) (a wbId : Nat),
          (∀ db' r, duplicateWorkbook db a wbId true = .ok (db', r)
              → db' = db)
            ∧ (∀ e, duplicateWorkbook db a wbId true = .error e
                → duplicateWorkbook db a wbId false = .error e)) :=
  ⟨createWeek_peek_spec, deleteWeek_peek_spec, createActivity_peek_spec,
    deleteActivity_peek_spec, patchActivity_peek_spec,
    patchWorkbook_peek_spec, deleteWorkbook_peek_spec,
    duplicateWorkbook_peek_spec⟩

/-- Witness for the amended C8: an outsider's dry-run workbook delete is
rejected with PermissionDenied, and the theorem transports that failure to
the real call. -/
theorem C8_peek_no_write_and_error_agreement_witness :
    deleteWorkbook dbFour 4 20 true = .error .permissionDenied
      ∧ deleteWorkbook dbFour 4 20 false = .error .permissionDenied :=
  ⟨by decide,
    (C8_peek_no_write_and_error_agreement.2.2.2.2.2.2.1 dbFour 4 20).2
      .permissionDenied (by decide)⟩

/-- The activity copies of `duplicate_workbook` preserve every field except
the identity and the workbook reference, which become the fresh id and the
new workbook. -/
theorem copyActsAndStaff_projections (st : List ActivityStaff) (wb : Nat) :
    ∀ (nid : Nat) (l : List Activity),
      ((copyActsAndStaff st wb nid l).1).map (fun a =>
          (a.workbookId, a.weekNumber, a.number, a.name,
            a.timeEstimateMinutes, a.locationId, a.learningActivityId,
            a.learningTypeId, a.taskStatusId))
        = l.map (fun a => (wb, a.weekNumber, a.number, a.name,
            a.timeEstimateMinutes, a.locationId, a.learningActivityId,
            a.learningTypeId, a.taskStatusId)) := by
  intro nid l
  induction l generalizing nid with
  | nil => rfl
  | cons a t ih =>
    simp only [copyActsAndStaff, List.map_cons]
    rw [ih]

/-- All ids allocated by the activity-copy loop lie at or above the first
fresh id. -/
theorem copyActsAndStaff_ids_ge (st : List ActivityStaff) (wb : Nat) :
    ∀ (nid : Nat) (l : List Activity),
      (∀ a ∈ (copyActsAndStaff st wb nid l).1, nid ≤ a.id)
        ∧ (∀ s ∈ (copyActsAndStaff st wb nid l).2, nid ≤ s.activityId) := by
  intro nid l
  induction l generalizing nid with
  | nil => exact ⟨fun a ha => absurd ha (List.not_mem_nil a),
      fun s hs => absurd hs (List.not_mem_nil s)⟩
  | cons a t ih =>
    constructor
    · intro x hx
      simp only [copyActsAndStaff, List.mem_cons] at hx
      rcases hx with rfl | hx
      · exact Nat.le_refl _
      · exact Nat.le_of_succ_le ((ih (nid + 1)).1 x hx)
    · intro s hs
      simp only [copyActsAndStaff, List.mem_append] at hs
      rcases hs with hs | hs
      · obtain ⟨s₀, _, rfl⟩ := List.mem_map.mp hs
        exact Nat.le_refl _
      · exact Nat.le_of_succ_le ((ih (nid + 1)).2 s hs)

/-- The staff copies of `duplicate_workbook`: for each source activity and
its copy (paired positionally), every `ActivityStaff` row of the source
activity is recreated with the same staff member against the copy's id. -/
theorem copyActsAndStaff_staff_rows (st : List ActivityStaff) (wb : Nat) :
    ∀ (nid : Nat) (l : List Activity),
      (copyActsAndStaff st wb nid l).2
        = (((copyActsAndStaff st wb nid l).1.zip l).flatMap (fun p =>
            (st.filter (fun s => s.activityId == p.2.id)).map
              (fun s => { staffId := s.staffId, activityId := p.1.id }))) := by
  intro nid l
  induction l generalizing nid with
  | nil => rfl
  | cons a t ih =>
    simp only [copyActsAndStaff, List.zip_cons_cons, List.flatMap_cons]
    rw [ih]

/-- C5: duplicating a workbook creates a new workbook led by the acting
user with a fresh identity, copies every week, week-graduate-attribute
row, activity (week number and ordinal verbatim), activity-staff row and
contributor row against the new workbook, and no newly created row
references any row of the source workbook. -/
theorem C5_duplicate_workbook (db : DB) (actorId wbId : Nat)
    (usr : User) (wb : Workbook)
    (hu : db.users.find? (fun x => x.id == actorId) = some usr)
    (hwb : db.workbooks.find? (fun w => w.id == wbId) = some wb)
    (hfreshW : ∀ w ∈ db.workbooks, w.id < db.nextId)
    (hfreshA : ∀ a ∈ db.activities, a.id < db.nextId) :
    duplicateWorkbook db actorId wbId false
        = .ok (duplicateWorkbookApply db actorId wbId wb)
      ∧ (duplicateWorkbookApply db actorId wbId wb).2
          = some { id := db.nextId, startDate := wb.startDate,
                   endDate := wb.endDate,
                   courseName := wb.courseName ++ " - COPY",
                   courseLeadId := actorId,
                   learningPlatformId := wb.learningPlatformId,
                   numberOfWeeks := wb.numberOfWeeks }
      ∧ db.nextId ∉ db.workbooks.map (fun w => w.id)
      ∧ (duplicateWorkbookApply db actorId wbId wb).1.weeks
          = db.weeks ++ (db.weeks.filter (fun w => w.workbookId == wbId)).map
              (fun w => { workbookId := db.nextId, number := w.number })
      ∧ (duplicateWorkbookApply db actorId wbId wb).1.wgas
          = db.wgas ++ (db.wgas.filter (fun g =>
              g.weekWorkbookId == wbId)).map (fun g =>
              { weekWorkbookId := db.nextId, weekNumber := g.weekNumber,
                graduateAttributeId := g.graduateAttributeId })
      ∧ (duplicateWorkbookApply db actorId wbId wb).1.contributors
          = db.contributors ++ (db.contributors.filter (fun c =>
              c.workbookId == wbId)).map (fun c =>
              { contributorId := c.contributorId, workbookId := db.nextId })
      ∧ (duplicateWorkbookApply db actorId wbId wb).1.activities
          = db.activities ++ (copyActsAndStaff db.activityStaff db.nextId
              (db.nextId + 1) (db.activities.filter (fun a =>
                a.workbookId == wbId))).1
      ∧ (duplicateWorkbookApply db actorId wbId wb).1.activityStaff
          = db.activityStaff ++ (copyActsAndStaff db.activityStaff db.nextId
              (db.nextId + 1) (db.activities.filter (fun a =>
                a.workbookId == wbId))).2
      ∧ ((copyActsAndStaff db.activityStaff db.nextId (db.nextId + 1)
            (db.activities.filter (fun a => a.workbookId == wbId))).1).map
            (fun a => (a.workbookId, a.weekNumber, a.number, a.name,
              a.timeEstimateMinutes, a.locationId, a.learningActivityId,
              a.learningTypeId, a.taskStatusId))
          = (db.activities.filter (fun a => a.workbookId == wbId)).map
              (fun a => (db.nextId, a.weekNumber, a.number, a.name,
                a.timeEstimateMinutes, a.locationId, a.learningActivityId,
                a.learningTypeId, a.taskStatusId))
      ∧ (∀ a ∈ (copyActsAndStaff db.activityStaff db.nextId (db.nextId + 1)
            (db.activities.filter (fun a => a.workbookId == wbId))).1,
          a.id ∉ db.activities.map (fun a => a.id))
      ∧ (∀ s ∈ (copyActsAndStaff db.activityStaff db.nextId (db.nextId + 1)
            (db.activities.filter (fun a => a.workbookId == wbId))).2,
          s.activityId ∉ db.activities.map (fun a => a.id)) := by
  refine ⟨?_, rfl, ?_, rfl, rfl, rfl, rfl, rfl,
    copyActsAndStaff_projections db.activityStaff db.nextId (db.nextId + 1) _,
    ?_, ?_⟩
  · unfold duplicateWorkbook
    simp only [hu, hwb]
    rw [if_neg Bool.false_ne_true]
  · intro hmem
    obtain ⟨w, hw, hwid⟩ := List.mem_map.mp hmem
    have := hfreshW w hw
    omega
  · intro a ha hmem
    obtain ⟨b, hb, hbid⟩ := List.mem_map.mp hmem
    have h1 := (copyActsAndStaff_ids_ge db.activityStaff db.nextId
      (db.nextId + 1) _).1 a ha
    have h2 := hfreshA b hb
    omega
  · intro s hs hmem
    obtain ⟨b, hb, hbid⟩ := List.mem_map.mp hmem
    have h1 := (copyActsAndStaff_ids_ge db.activityStaff db.nextId
      (db.nextId + 1) _).2 s hs
    have h2 := hfreshA b hb
    omega

/-- Witness for C5: contributor 3 duplicates workbook 20 of `dbWeeks`; the
call succeeds and the week copies carry the source numbers verbatim. -/
theorem C5_duplicate_workbook_witness :
    duplicateWorkbook dbWeeks 3 20 false
        = .ok (duplicateWorkbookApply dbWeeks 3 20 ⟨20, 0, 100, "CS", 2, 30, 4⟩)
      ∧ (duplicateWorkbookApply dbWeeks 3 20
            ⟨20, 0, 100, "CS", 2, 30, 4⟩).1.weeks
          = dbWeeks.weeks
            ++ (dbWeeks.weeks.filter (fun w => w.workbookId == 20)).map
                (fun w => { workbookId := dbWeeks.nextId, number := w.number }) :=
  ⟨(C5_duplicate_workbook dbWeeks 3 20 ⟨3, "contrib", 11⟩
      ⟨20, 0, 100, "CS", 2, 30, 4⟩ rfl rfl (by decide) (by decide)).1,
    (C5_duplicate_workbook dbWeeks 3 20 ⟨3, "contrib", 11⟩
      ⟨20, 0, 100, "CS", 2, 30, 4⟩ rfl rfl (by decide) (by decide)).2.2.2.1⟩

/-- C4: deleting week `k` of a workbook removes the week's row, its own
activities (and their staff rows) and its own WeekGraduateAttribute rows;
every sibling week of the workbook with a larger number is decremented by
one, and the same decrement is applied to the WeekGraduateAttribute rows
keyed by the sibling's old number and to every activity of that workbook
whose week number equals the sibling's old number.  Rows of other
workbooks survive unchanged (the sentry round trip restores the foreign
activities that share the deleted number). -/
theorem C4_delete_week_cascade (db : DB) (actorId wbId : Nat) (k : Int)
    (wk : Week) (wb : Workbook)
    (hk : 1 ≤ k)
    (hfindw : db.weeks.find? (fun w =>
      w.workbookId == wbId && w.number == k) = some wk)
    (hfindb : db.workbooks.find? (fun w => w.id == wk.workbookId) = some wb)
    (hauth : checkContentPermission db actorId wb = .ok ())
    (hids : (db.activities.map (fun a => a.id)).Nodup)
    (hfkW : ∀ g ∈ db.wgas, g.weekWorkbookId = wbId → k < g.weekNumber →
      ∃ w ∈ db.weeks, w.workbookId = wbId ∧ w.number = g.weekNumber)
    (hfkA : ∀ a ∈ db.activities, a.workbookId = wbId → k < a.weekNumber →
      ∃ w ∈ db.weeks, w.workbookId = wbId ∧ w.number = a.weekNumber) :
    deleteWeek db actorId wbId k false = .ok (deleteWeekApply db wbId k)
      ∧ (deleteWeekApply db wbId k).weeks
          = (db.weeks.filter (fun w =>
              !(w.workbookId == wbId && w.number == k))).map
            (fun w => if w.workbookId == wbId ∧ k < w.number then
                { w with number := w.number - 1 } else w)
      ∧ (deleteWeekApply db wbId k).wgas
          = (db.wgas.filter (fun g =>
              !(g.weekWorkbookId == wbId && g.weekNumber == k))).map
            (fun g => if g.weekWorkbookId == wbId ∧ k < g.weekNumber then
                { g with weekNumber := g.weekNumber - 1 } else g)
      ∧ (deleteWeekApply db wbId k).activities
          = (db.activities.filter (fun a =>
              !(a.workbookId == wbId && a.weekNumber == k))).map
            (fun a => if a.workbookId == wbId ∧ k < a.weekNumber then
                { a with weekNumber := a.weekNumber - 1 } else a)
      ∧ (deleteWeekApply db wbId k).activityStaff
          = db.activityStaff.filter (fun s =>
              !(((db.activities.filter (fun a =>
                  a.workbookId == wbId && a.weekNumber == k)).map
                  (fun a => a.id)).contains s.activityId))
      ∧ (deleteWeekApply db wbId k).workbooks
          = db.workbooks.map (fun w =>
              if w.id == wbId then
                { w with numberOfWeeks := w.numberOfWeeks - 1 }
              else w) := by
  refine ⟨?_, deleteWeekApply_weeks db wbId k,
    deleteWeekApply_wgas db wbId k hfkW,
    deleteWeekApply_activities db wbId k hk hids hfkA,
    deleteWeekApply_staff db wbId k hk,
    deleteWeekApply_workbooks db wbId k⟩
  unfold deleteWeek
  simp only [hfindw, hfindb, hauth]
  rw [if_neg Bool.false_ne_true]

/-- Witness for C4: the admin deletes week 2 of workbook 20 in `dbWeeks`;
weeks 3 and 4 close the gap together with their graduate-attribute rows and
activities, week 2's own activity and its staff row are gone, and workbook
21 (whose week 2 shares the number) is untouched. -/
theorem C4_delete_week_cascade_witness :
    deleteWeek dbWeeks 1 20 2 false = .ok (deleteWeekApply dbWeeks 20 2)
      ∧ (deleteWeekApply dbWeeks 20 2).weeks
          = (dbWeeks.weeks.filter (fun w =>
              !(w.workbookId == 20 && w.number == 2))).map
            (fun w => if w.workbookId == 20 ∧ 2 < w.number then
                { w with number := w.number - 1 } else w)
      ∧ (deleteWeekApply dbWeeks 20 2).activities
          = (dbWeeks.activities.filter (fun a =>
              !(a.workbookId == 20 && a.weekNumber == 2))).map
            (fun a => if a.workbookId == 20 ∧ 2 < a.weekNumber then
                { a with weekNumber := a.weekNumber - 1 } else a) :=
  ⟨(C4_delete_week_cascade dbWeeks 1 20 2 ⟨20, 2⟩ ⟨20, 0, 100, "CS", 2, 30, 4⟩
      (by decide) rfl rfl rfl (by decide) (by decide) (by decide)).1,
    (C4_delete_week_cascade dbWeeks 1 20 2 ⟨20, 2⟩ ⟨20, 0, 100, "CS", 2, 30, 4⟩
      (by decide) rfl rfl rfl (by decide) (by decide) (by decide)).2.1,
    (C4_delete_week_cascade dbWeeks 1 20 2 ⟨20, 2⟩ ⟨20, 0, 100, "CS", 2, 30, 4⟩
      (by decide) rfl rfl rfl (by decide) (by decide) (by decide)).2.2.2.1⟩
